import Mathlib

/-!
Verification of the TI CPSW Address Lookup Engine (ALE) table manager,
a shallow embedding of drivers/net/ethernet/ti/cpsw_ale.c.

Machine integers are modelled as Nat with explicit truncation mod 2^32 at
every point where the C code performs 32-bit arithmetic.  An ALE table
entry is three 32-bit words, word 0 holding the most significant bits of
the 96-bit entry, exactly as the hardware register window is laid out.
-/

namespace CpswAle

/-- BITMASK(bits) from cpsw_ale.c: BIT(bits) - 1, i.e. the low `bits` ones. -/
def BITMASK (bits : Nat) : Nat := 2 ^ bits - 1

/-- The C clear step w &= ~mask, written as subtraction of the common bits
so that the kernel can evaluate it on literals (Nat.ldiff does not reduce
in the kernel); proved equal to Nat.ldiff below. -/
def cAndNot (a b : Nat) : Nat := a - (a &&& b)

/-- One ALE table entry: ALE_ENTRY_WORDS = 3 unsigned 32-bit words.
Word 0 holds entry bits 64..95, word 1 bits 32..63, word 2 bits 0..31. -/
structure AleEntry where
  w0 : Nat
  w1 : Nat
  w2 : Nat
deriving DecidableEq, Repr

/-- Read storage word `i` of an entry (the C expression ale_entry[i]). -/
def AleEntry.get (e : AleEntry) : Nat → Nat
  | 0 => e.w0
  | 1 => e.w1
  | _ => e.w2

/-- Write storage word `i` of an entry (the C assignment ale_entry[i] = v). -/
def AleEntry.setw (e : AleEntry) : Nat → Nat → AleEntry
  | 0, v => { e with w0 := v }
  | 1, v => { e with w1 := v }
  | _, v => { e with w2 := v }

/-- All three words of an entry fit in 32 bits (the u32 invariant). -/
def AleEntry.Wf (e : AleEntry) : Prop :=
  e.w0 < 2 ^ 32 ∧ e.w1 < 2 ^ 32 ∧ e.w2 < 2 ^ 32

instance (e : AleEntry) : Decidable e.Wf := by
  unfold AleEntry.Wf; infer_instance

/-- cpsw_ale_get_field: extract the `bits`-wide field at bit `start` of the
96-bit entry.  The word order flip (2 - idx) and the 32-bit truncation of
the intermediate shift/add mirror the C int arithmetic. -/
def cpsw_ale_get_field (e : AleEntry) (start bits : Nat) : Nat :=
  let idx := start / 32
  let idx2 := (start + bits - 1) / 32
  let hi_val :=
    if idx ≠ idx2 then (e.get (2 - idx2) <<< (idx2 * 32 - start)) % 2 ^ 32
    else 0
  ((hi_val + e.get (2 - idx) >>> (start - idx * 32)) % 2 ^ 32) &&& BITMASK bits

/-- cpsw_ale_set_field: store `value` (truncated to `bits` bits) into the
field at bit `start`.  Nat.ldiff models the C clear step w &= ~mask, which
agrees with it whenever the word respects the u32 invariant. -/
def cpsw_ale_set_field (e : AleEntry) (start bits value : Nat) : AleEntry :=
  let value := value &&& BITMASK bits
  let idx := start / 32
  let idx2 := (start + bits - 1) / 32
  let e1 :=
    if idx ≠ idx2 then
      let index := 2 - idx2
      let w := cAndNot (e.get index) (BITMASK (bits + start - idx2 * 32))
      e.setw index (w ||| value >>> (idx2 * 32 - start))
    else e
  let start1 := start - idx * 32
  let idx' := 2 - idx
  let w := cAndNot (e1.get idx') (BITMASK bits <<< start1)
  e1.setw idx' (w ||| (value <<< start1) % 2 ^ 32)

/-- Bit `b` of the 96-bit entry value, following the reversed word order:
bit b lives in storage word 2 - b / 32 at offset b % 32. -/
def entryBit (e : AleEntry) (b : Nat) : Bool :=
  Nat.testBit (e.get (2 - b / 32)) (b % 32)

theorem AleEntry.get_setw (e : AleEntry) (i j v : Nat) :
    (e.setw i v).get j = if min j 2 = min i 2 then v else e.get j := by
  rcases i with _ | _ | i <;> rcases j with _ | _ | j <;>
    simp [AleEntry.setw, AleEntry.get, Nat.min_def]

theorem AleEntry.Wf.get_lt {e : AleEntry} (h : e.Wf) (i : Nat) :
    e.get i < 2 ^ 32 := by
  rcases i with _ | _ | i
  · exact h.1
  · exact h.2.1
  · exact h.2.2

theorem BITMASK_eq (bits : Nat) : BITMASK bits = 2 ^ bits - 1 := rfl

theorem and_BITMASK (x bits : Nat) : x &&& BITMASK bits = x % 2 ^ bits := by
  rw [BITMASK_eq, Nat.and_pow_two_sub_one_eq_mod]

theorem shiftLeft_mod_two_pow {n : Nat} (a : Nat) (h : n ≤ 32) :
    (a <<< n) % 2 ^ 32 = 2 ^ n * (a % 2 ^ (32 - n)) := by
  rw [Nat.shiftLeft_eq]
  calc a * 2 ^ n % 2 ^ 32
      = a * 2 ^ n % (2 ^ (32 - n) * 2 ^ n) := by
        rw [← pow_add]; congr 2; omega
    _ = a % 2 ^ (32 - n) * 2 ^ n := Nat.mul_mod_mul_right _ _ _
    _ = 2 ^ n * (a % 2 ^ (32 - n)) := Nat.mul_comm _ _

theorem ldiff_shift_mask (w r b : Nat) :
    Nat.ldiff w (BITMASK b <<< r) =
      w % 2 ^ r + 2 ^ (r + b) * (w / 2 ^ (r + b)) := by
  apply Nat.eq_of_testBit_eq
  intro i
  rw [Nat.add_comm (w % 2 ^ r), Nat.testBit_mul_pow_two_add _
    (lt_of_lt_of_le (Nat.mod_lt _ (Nat.two_pow_pos r))
      (Nat.pow_le_pow_right (by omega) (by omega)))]
  rw [Nat.testBit_ldiff, BITMASK_eq]
  rcases Nat.lt_or_ge i r with hir | hir
  · simp [Nat.testBit_shiftLeft, hir, Nat.not_le_of_lt hir,
      Nat.lt_of_lt_of_le hir (Nat.le_add_right r b)]
  · rcases Nat.lt_or_ge i (r + b) with hirb | hirb
    · simp [Nat.testBit_shiftLeft, hir, hirb, Nat.not_lt_of_le hir]
      omega
    · have h1 : ¬ i < r + b := Nat.not_lt_of_le hirb
      have h2 : ¬ i - r < b := by omega
      simp [Nat.testBit_shiftLeft, hir, h1, h2, Nat.not_lt_of_le hir]
      rw [← Nat.shiftRight_eq_div_pow, Nat.testBit_shiftRight]
      congr 1
      omega

theorem ldiff_low_mask (w k : Nat) :
    Nat.ldiff w (BITMASK k) = 2 ^ k * (w / 2 ^ k) := by
  have h := ldiff_shift_mask w 0 k
  rw [Nat.pow_zero, Nat.mod_one, Nat.zero_add, Nat.zero_add] at h
  simpa using h

theorem or_disjoint_eq_add {a b i : Nat} (hb : b < 2 ^ i) :
    2 ^ i * a ||| b = 2 ^ i * a + b :=
  (Nat.mul_add_lt_is_or hb a).symm

theorem lor_eq_add_of_land (a : Nat) : ∀ b, a &&& b = 0 → a ||| b = a + b := by
  induction a using Nat.strong_induction_on with
  | _ a ih =>
    intro b h
    rcases Nat.eq_zero_or_pos a with rfl | ha
    · simp
    have h2 : a / 2 &&& b / 2 = 0 := by
      rw [← Nat.and_div_two, h]
    have hmod : a % 2 = 0 ∨ b % 2 = 0 := by
      by_contra hc
      push_neg at hc
      have h1 : (a &&& b) % 2 = 1 := Nat.and_mod_two_eq_one.mpr (by omega)
      rw [h] at h1
      exact absurd h1 (by norm_num)
    have ihrec := ih (a / 2) (by omega) (b / 2) h2
    have hdec : a ||| b = 2 * ((a / 2) ||| (b / 2)) + (a ||| b) % 2 := by
      rw [← Nat.or_div_two]
      exact (Nat.div_add_mod (a ||| b) 2).symm
    have hor2 : (a ||| b) % 2 = a % 2 + b % 2 := by
      have k1 := Nat.mod_two_eq_zero_or_one a
      have k2 := Nat.mod_two_eq_zero_or_one b
      have k3 := Nat.mod_two_eq_zero_or_one (a ||| b)
      have k4 : (a ||| b) % 2 = 1 ↔ a % 2 = 1 ∨ b % 2 = 1 :=
        Nat.or_mod_two_eq_one
      omega
    rw [hdec, ihrec, hor2]
    omega

theorem ldiff_eq_sub (a b : Nat) : Nat.ldiff a b = a - (a &&& b) := by
  have hdisj : Nat.ldiff a b &&& (a &&& b) = 0 := by
    apply Nat.eq_of_testBit_eq
    intro i
    simp only [Nat.testBit_and, Nat.testBit_ldiff, Nat.zero_testBit]
    cases a.testBit i <;> cases b.testBit i <;> simp
  have hsum : Nat.ldiff a b + (a &&& b) = a := by
    rw [← lor_eq_add_of_land _ _ hdisj]
    apply Nat.eq_of_testBit_eq
    intro i
    simp only [Nat.testBit_or, Nat.testBit_and, Nat.testBit_ldiff]
    cases a.testBit i <;> cases b.testBit i <;> simp
  omega

theorem cAndNot_eq_ldiff (a b : Nat) : cAndNot a b = Nat.ldiff a b :=
  (ldiff_eq_sub a b).symm

/-- Structured mod: chopping a shifted sum at a higher power. -/
theorem mod_structured {a c X b : Nat} (hb : b < 2 ^ a) :
    (2 ^ a * X + b) % (2 ^ a * 2 ^ c) = 2 ^ a * (X % 2 ^ c) + b := by
  conv_lhs => rw [← Nat.div_add_mod X (2 ^ c)]
  have key : 2 ^ a * (2 ^ c * (X / 2 ^ c) + X % 2 ^ c) + b
      = 2 ^ a * 2 ^ c * (X / 2 ^ c) + (2 ^ a * (X % 2 ^ c) + b) := by ring
  rw [key, Nat.mul_add_mod]
  apply Nat.mod_eq_of_lt
  have h1 : X % 2 ^ c ≤ 2 ^ c - 1 := by
    have := Nat.mod_lt X (Nat.two_pow_pos c); omega
  have h2 : 2 ^ a * (X % 2 ^ c) ≤ 2 ^ a * (2 ^ c - 1) := Nat.mul_le_mul_left _ h1
  have h3 : 2 ^ a * (2 ^ c - 1) + 2 ^ a = 2 ^ a * 2 ^ c := by
    rw [← Nat.mul_succ]
    congr 1
    have := Nat.two_pow_pos c
    omega
  omega

theorem get_field_width_zero (e : AleEntry) (s : Nat) :
    cpsw_ale_get_field e s 0 = 0 := by
  simp [cpsw_ale_get_field, BITMASK]

theorem set_field_no_straddle (e : AleEntry) (s w v : Nat) (hw : 1 ≤ w)
    (hns : s % 32 + w ≤ 32) :
    cpsw_ale_set_field e s w v =
      e.setw (2 - s / 32)
        (Nat.ldiff (e.get (2 - s / 32)) (BITMASK w <<< (s % 32)) |||
          ((v &&& BITMASK w) <<< (s % 32)) % 2 ^ 32) := by
  have h1 : (s + w - 1) / 32 = s / 32 := by omega
  have h2 : s - s / 32 * 32 = s % 32 := by omega
  unfold cpsw_ale_set_field
  simp only [h1, h2, ne_self_iff_false, if_false, cAndNot_eq_ldiff]

theorem set_field_straddle (e : AleEntry) (s w v : Nat)
    (h32 : 32 < s % 32 + w) (h64 : s % 32 + w ≤ 64) (h96 : s + w ≤ 96) :
    cpsw_ale_set_field e s w v =
      (e.setw (1 - s / 32)
          (Nat.ldiff (e.get (1 - s / 32)) (BITMASK (s % 32 + w - 32)) |||
            (v &&& BITMASK w) >>> (32 - s % 32))).setw
        (2 - s / 32)
        (Nat.ldiff (e.get (2 - s / 32)) (BITMASK w <<< (s % 32)) |||
          ((v &&& BITMASK w) <<< (s % 32)) % 2 ^ 32) := by
  have hq1 : s / 32 ≤ 1 := by omega
  have h1 : (s + w - 1) / 32 = s / 32 + 1 := by omega
  have h2 : s - s / 32 * 32 = s % 32 := by omega
  have h3 : 2 - (s / 32 + 1) = 1 - s / 32 := by omega
  have h4 : w + s - (s / 32 + 1) * 32 = s % 32 + w - 32 := by omega
  have h5 : (s / 32 + 1) * 32 - s = 32 - s % 32 := by omega
  have hne : s / 32 ≠ s / 32 + 1 := by omega
  unfold cpsw_ale_set_field
  simp only [h1, h2, h3, h4, h5, if_pos hne, ne_eq, not_false_eq_true, if_true,
    cAndNot_eq_ldiff]
  rw [AleEntry.get_setw]
  have : ¬ (min (2 - s / 32) 2 = min (1 - s / 32) 2) := by omega
  rw [if_neg this]

theorem get_field_no_straddle (e : AleEntry) (s w : Nat) (hw : 1 ≤ w)
    (hns : s % 32 + w ≤ 32) :
    cpsw_ale_get_field e s w =
      (e.get (2 - s / 32) >>> (s % 32)) % 2 ^ 32 &&& BITMASK w := by
  have h1 : (s + w - 1) / 32 = s / 32 := by omega
  have h2 : s - s / 32 * 32 = s % 32 := by omega
  unfold cpsw_ale_get_field
  simp only [h1, h2, ne_self_iff_false, if_false, Nat.zero_add]

theorem get_field_straddle (e : AleEntry) (s w : Nat)
    (h32 : 32 < s % 32 + w) (h64 : s % 32 + w ≤ 64) (h96 : s + w ≤ 96) :
    cpsw_ale_get_field e s w =
      ((e.get (1 - s / 32) <<< (32 - s % 32)) % 2 ^ 32 +
        e.get (2 - s / 32) >>> (s % 32)) % 2 ^ 32 &&& BITMASK w := by
  have h1 : (s + w - 1) / 32 = s / 32 + 1 := by omega
  have h2 : s - s / 32 * 32 = s % 32 := by omega
  have h3 : 2 - (s / 32 + 1) = 1 - s / 32 := by omega
  have h5 : (s / 32 + 1) * 32 - s = 32 - s % 32 := by omega
  have hne : s / 32 ≠ s / 32 + 1 := by omega
  unfold cpsw_ale_get_field
  simp only [h1, h2, h3, h5, if_pos hne, ne_eq, not_false_eq_true, if_true]

/-- Mixed mod: a sum whose left part is a multiple of 2^k, chopped at 2^r
then 2^k, returns the small right part. -/
theorem mod_mixed {k r A D : Nat} (hDr : D < 2 ^ r) (hDk : D < 2 ^ k) :
    (2 ^ k * A + D) % 2 ^ r % 2 ^ k = D := by
  rcases Nat.le_total k r with h | h
  · rw [Nat.mod_mod_of_dvd _ (pow_dvd_pow 2 h), Nat.mul_add_mod,
      Nat.mod_eq_of_lt hDk]
  · have hk : (2 : Nat) ^ k = 2 ^ r * 2 ^ (k - r) := by
      rw [← pow_add]; congr 1; omega
    have key : 2 ^ k * A + D = 2 ^ r * (2 ^ (k - r) * A) + D := by
      rw [hk]; ring
    rw [key, Nat.mul_add_mod, Nat.mod_eq_of_lt hDr, Nat.mod_eq_of_lt hDk]

/-- Round-trip arithmetic core, field contained in one 32-bit word. -/
theorem roundtrip_core_ns (Wl val r w : Nat) (hw : 1 ≤ w)
    (hns : r + w ≤ 32) (hWl : Wl < 2 ^ 32) (hval : val < 2 ^ w) :
    (Nat.ldiff Wl (BITMASK w <<< r) ||| (val <<< r) % 2 ^ 32) >>> r % 2 ^ 32
      &&& BITMASK w = val := by
  have h2r : 0 < (2 : Nat) ^ r := Nat.two_pow_pos r
  have hpow : (2 : Nat) ^ (r + w) = 2 ^ r * 2 ^ w := pow_add 2 r w
  have hmod : val % 2 ^ (32 - r) = val :=
    Nat.mod_eq_of_lt (lt_of_lt_of_le hval (Nat.pow_le_pow_right (by omega) (by omega)))
  rw [ldiff_shift_mask, shiftLeft_mod_two_pow val (by omega), hmod]
  rw [Nat.add_comm (Wl % 2 ^ r)]
  rw [← or_disjoint_eq_add
    (lt_of_lt_of_le (Nat.mod_lt Wl h2r)
      (Nat.pow_le_pow_right (by omega) (Nat.le_add_right r w)))]
  rw [Nat.or_assoc, Nat.or_comm (Wl % 2 ^ r),
    or_disjoint_eq_add (Nat.mod_lt Wl h2r)]
  have hmul : 2 ^ r * val ≤ 2 ^ r * (2 ^ w - 1) :=
    Nat.mul_le_mul_left _ (by omega)
  have hmul2 : 2 ^ r * (2 ^ w - 1) + 2 ^ r = 2 ^ r * 2 ^ w := by
    rw [← Nat.mul_succ]
    congr 1
    have := Nat.two_pow_pos w
    omega
  have hlt2 : 2 ^ r * val + Wl % 2 ^ r < 2 ^ (r + w) := by
    rw [hpow]
    have := Nat.mod_lt Wl h2r
    omega
  rw [or_disjoint_eq_add hlt2]
  rw [Nat.shiftRight_eq_div_pow]
  have keyN : 2 ^ (r + w) * (Wl / 2 ^ (r + w)) + (2 ^ r * val + Wl % 2 ^ r)
      = 2 ^ r * (2 ^ w * (Wl / 2 ^ (r + w)) + val) + Wl % 2 ^ r := by
    rw [hpow]; ring
  rw [keyN, Nat.mul_add_div h2r, Nat.div_eq_of_lt (Nat.mod_lt Wl h2r),
    Nat.add_zero]
  have hHi : Wl / 2 ^ (r + w) < 2 ^ (32 - (r + w)) := by
    rw [Nat.div_lt_iff_lt_mul (Nat.two_pow_pos _), ← pow_add]
    exact lt_of_lt_of_le hWl (Nat.pow_le_pow_right (by omega) (by omega))
  have hsmall : 2 ^ w * (Wl / 2 ^ (r + w)) + val < 2 ^ 32 := by
    have step1 : 2 ^ w * (Wl / 2 ^ (r + w)) + val < 2 ^ w * (Wl / 2 ^ (r + w) + 1) := by
      rw [Nat.mul_succ]; omega
    have step2 : 2 ^ w * (Wl / 2 ^ (r + w) + 1) ≤ 2 ^ w * 2 ^ (32 - (r + w)) :=
      Nat.mul_le_mul_left _ (by omega)
    have step3 : (2 : Nat) ^ w * 2 ^ (32 - (r + w)) ≤ 2 ^ 32 := by
      rw [← pow_add]
      exact Nat.pow_le_pow_right (by omega) (by omega)
    omega
  rw [Nat.mod_eq_of_lt hsmall, and_BITMASK, Nat.mul_add_mod,
    Nat.mod_eq_of_lt hval]

/-- Round-trip arithmetic core, field straddling two 32-bit words. -/
theorem roundtrip_core_str (Wh Wl val r w : Nat)
    (h32 : 32 < r + w) (h64 : r + w ≤ 64) (hr : r < 32)
    (hWl : Wl < 2 ^ 32) (hval : val < 2 ^ w) (hval32 : val < 2 ^ 32) :
    (((Nat.ldiff Wh (BITMASK (r + w - 32)) ||| val >>> (32 - r)) <<< (32 - r))
          % 2 ^ 32 +
        (Nat.ldiff Wl (BITMASK w <<< r) ||| (val <<< r) % 2 ^ 32) >>> r)
        % 2 ^ 32 &&& BITMASK w = val := by
  have h2r : 0 < (2 : Nat) ^ r := Nat.two_pow_pos r
  have h2sft : 0 < (2 : Nat) ^ (32 - r) := Nat.two_pow_pos _
  rw [ldiff_low_mask, Nat.shiftRight_eq_div_pow val]
  have hDk : val / 2 ^ (32 - r) < 2 ^ (r + w - 32) := by
    rw [Nat.div_lt_iff_lt_mul (Nat.two_pow_pos _), ← pow_add]
    have hwe : r + w - 32 + (32 - r) = w := by omega
    rw [hwe]
    exact hval
  have hDr : val / 2 ^ (32 - r) < 2 ^ r := by
    rw [Nat.div_lt_iff_lt_mul (Nat.two_pow_pos _), ← pow_add]
    have hwe : r + (32 - r) = 32 := by omega
    rw [hwe]
    exact hval32
  rw [or_disjoint_eq_add hDk]
  rw [ldiff_shift_mask]
  have hHi0 : Wl / 2 ^ (r + w) = 0 :=
    Nat.div_eq_of_lt (lt_of_lt_of_le hWl (Nat.pow_le_pow_right (by omega) (by omega)))
  rw [hHi0, Nat.mul_zero, Nat.add_zero]
  rw [shiftLeft_mod_two_pow val (by omega)]
  rw [Nat.or_comm (Wl % 2 ^ r), or_disjoint_eq_add (Nat.mod_lt Wl h2r)]
  rw [Nat.shiftRight_eq_div_pow _ r, Nat.mul_add_div h2r,
    Nat.div_eq_of_lt (Nat.mod_lt Wl h2r), Nat.add_zero]
  rw [shiftLeft_mod_two_pow _ (show 32 - r ≤ 32 by omega)]
  have h32sft : 32 - (32 - r) = r := by omega
  rw [h32sft]
  have hsum : 2 ^ (32 - r) *
      ((2 ^ (r + w - 32) * (Wh / 2 ^ (r + w - 32)) + val / 2 ^ (32 - r)) % 2 ^ r)
      + val % 2 ^ (32 - r) < 2 ^ 32 := by
    have hH : (2 ^ (r + w - 32) * (Wh / 2 ^ (r + w - 32)) + val / 2 ^ (32 - r))
        % 2 ^ r < 2 ^ r := Nat.mod_lt _ h2r
    have hmul : 2 ^ (32 - r) *
        ((2 ^ (r + w - 32) * (Wh / 2 ^ (r + w - 32)) + val / 2 ^ (32 - r)) % 2 ^ r)
        ≤ 2 ^ (32 - r) * (2 ^ r - 1) := Nat.mul_le_mul_left _ (by omega)
    have hmul2 : 2 ^ (32 - r) * (2 ^ r - 1) + 2 ^ (32 - r)
        = 2 ^ (32 - r) * 2 ^ r := by
      rw [← Nat.mul_succ]
      congr 1
      omega
    have hpow32 : (2 : Nat) ^ (32 - r) * 2 ^ r = 2 ^ 32 := by
      rw [← pow_add]; congr 1; omega
    have := Nat.mod_lt val h2sft
    omega
  rw [Nat.mod_eq_of_lt hsum, and_BITMASK]
  have hw2 : (2 : Nat) ^ w = 2 ^ (32 - r) * 2 ^ (r + w - 32) := by
    rw [← pow_add]; congr 1; omega
  rw [hw2, mod_structured (Nat.mod_lt val h2sft)]
  rw [mod_mixed hDr hDk]
  exact Nat.div_add_mod val (2 ^ (32 - r))

theorem ldiff_le (w m : Nat) : Nat.ldiff w m ≤ w := by
  apply Nat.le_of_testBit
  intro i h
  rw [Nat.testBit_ldiff] at h
  exact (Bool.and_eq_true_iff.mp h).1

theorem setw_wf {e : AleEntry} (h : e.Wf) {x : Nat} (hx : x < 2 ^ 32)
    (i : Nat) : (e.setw i x).Wf := by
  obtain ⟨h0, h1, h2⟩ := h
  rcases i with _ | _ | i <;>
    exact ⟨by simpa [AleEntry.setw], by simpa [AleEntry.setw],
      by simpa [AleEntry.setw]⟩

/-- Storing a field never breaks the 32-bit word invariant. -/
theorem set_field_wf {e : AleEntry} (h : e.Wf) (s w v : Nat) :
    (cpsw_ale_set_field e s w v).Wf := by
  simp only [cpsw_ale_set_field, cAndNot_eq_ldiff]
  have hk : w + s - (s + w - 1) / 32 * 32 ≤ 32 := by omega
  have hhi : (v &&& BITMASK w) >>> ((s + w - 1) / 32 * 32 - s) < 2 ^ 32 := by
    rw [and_BITMASK, Nat.shiftRight_eq_div_pow,
      Nat.div_lt_iff_lt_mul (Nat.two_pow_pos _), ← pow_add]
    calc v % 2 ^ w < 2 ^ w := Nat.mod_lt _ (Nat.two_pow_pos w)
      _ ≤ 2 ^ (32 + ((s + w - 1) / 32 * 32 - s)) :=
          Nat.pow_le_pow_right (by omega) (by omega)
  have hstep : ∀ e1 : AleEntry, e1.Wf →
      (e1.setw (2 - s / 32)
        (Nat.ldiff (e1.get (2 - s / 32)) (BITMASK w <<< (s - s / 32 * 32)) |||
          ((v &&& BITMASK w) <<< (s - s / 32 * 32)) % 2 ^ 32)).Wf := by
    intro e1 h1
    apply setw_wf h1
    exact Nat.or_lt_two_pow
      (lt_of_le_of_lt (ldiff_le _ _) (h1.get_lt _)) (Nat.mod_lt _ (by norm_num))
  split
  · apply hstep
    apply setw_wf h
    exact Nat.or_lt_two_pow
      (lt_of_le_of_lt (ldiff_le _ _) (h.get_lt _)) hhi
  · exact hstep e h

/-- Amended round trip: the stored value is recovered, masked to the field
width, for every field that spans at most two 32-bit words. -/
theorem get_set_same (e : AleEntry) (s w v : Nat) (hwf : e.Wf)
    (h64 : s % 32 + w ≤ 64) (h96 : s + w ≤ 96) (hv : v < 2 ^ 32) :
    cpsw_ale_get_field (cpsw_ale_set_field e s w v) s w = v &&& BITMASK w := by
  rcases Nat.eq_zero_or_pos w with hw0 | hw
  · subst hw0
    rw [get_field_width_zero, and_BITMASK]
    simp [Nat.mod_one]
  have hval : v &&& BITMASK w < 2 ^ w := by
    rw [and_BITMASK]; exact Nat.mod_lt _ (Nat.two_pow_pos w)
  have hval32 : v &&& BITMASK w < 2 ^ 32 := by
    rw [and_BITMASK]; exact lt_of_le_of_lt (Nat.mod_le _ _) hv
  rcases Nat.lt_or_ge 32 (s % 32 + w) with hstr | hns
  · rw [set_field_straddle e s w v hstr h64 h96,
      get_field_straddle _ s w hstr h64 h96]
    rw [AleEntry.get_setw, AleEntry.get_setw, AleEntry.get_setw]
    have hq1 : s / 32 ≤ 1 := by omega
    rw [if_pos rfl, if_neg (by omega : ¬ min (1 - s / 32) 2 = min (2 - s / 32) 2),
      if_pos rfl]
    exact roundtrip_core_str _ _ _ _ _ hstr h64 (by omega) (hwf.get_lt _)
      hval hval32
  · rw [set_field_no_straddle e s w v hw hns,
      get_field_no_straddle _ s w hw hns]
    rw [AleEntry.get_setw, if_pos rfl]
    exact roundtrip_core_ns _ _ _ _ hw hns (hwf.get_lt _) hval

theorem get_field_lt (e : AleEntry) (s w : Nat) :
    cpsw_ale_get_field e s w < 2 ^ w := by
  unfold cpsw_ale_get_field
  rw [and_BITMASK]
  exact Nat.mod_lt _ (Nat.two_pow_pos w)

theorem testBit_patch_low {Wl value r w : Nat} (p : Nat) (hval : value < 2 ^ w)
    (hout : p < r ∨ r + w ≤ p) :
    (Nat.ldiff Wl (BITMASK w <<< r) ||| (value <<< r) % 2 ^ 32).testBit p
      = Wl.testBit p := by
  simp only [Nat.testBit_lor, Nat.testBit_ldiff, Nat.testBit_mod_two_pow,
    Nat.testBit_shiftLeft, BITMASK_eq, Nat.testBit_two_pow_sub_one]
  rcases hout with h | h
  · simp [Nat.not_le.mpr h]
  · have h1 : ¬ p - r < w := by omega
    have h2 : value.testBit (p - r) = false :=
      Nat.testBit_lt_two_pow
        (lt_of_lt_of_le hval (Nat.pow_le_pow_right (by omega) (by omega)))
    simp [h1, h2]

theorem testBit_patch_high {Wh value k t w : Nat} (p : Nat)
    (hval : value < 2 ^ w) (hp : k ≤ p) (hw : w ≤ t + p) :
    (Nat.ldiff Wh (BITMASK k) ||| value >>> t).testBit p = Wh.testBit p := by
  simp only [Nat.testBit_lor, Nat.testBit_ldiff, Nat.testBit_shiftRight,
    BITMASK_eq, Nat.testBit_two_pow_sub_one]
  have h1 : ¬ p < k := by omega
  have h2 : value.testBit (t + p) = false :=
    Nat.testBit_lt_two_pow
      (lt_of_lt_of_le hval (Nat.pow_le_pow_right (by omega) hw))
  simp [h1, h2]

/-- Frame property at the bit level: set_field leaves every entry bit
outside the target range unchanged, for any nonzero width. -/
theorem entryBit_set_field_outside (e : AleEntry) (s w v b : Nat)
    (hw : 1 ≤ w) (h96 : s + w ≤ 96) (hb : b < 96)
    (hout : b < s ∨ s + w ≤ b) :
    entryBit (cpsw_ale_set_field e s w v) b = entryBit e b := by
  have hq2 : s / 32 ≤ 2 := by omega
  have hd2 : (s + w - 1) / 32 ≤ 2 := by omega
  have hqd : s / 32 ≤ (s + w - 1) / 32 := by omega
  have hb2 : b / 32 ≤ 2 := by omega
  have hval : v &&& BITMASK w < 2 ^ w := by
    rw [and_BITMASK]; exact Nat.mod_lt _ (Nat.two_pow_pos w)
  simp only [cpsw_ale_set_field, entryBit, cAndNot_eq_ldiff]
  by_cases hc : s / 32 ≠ (s + w - 1) / 32
  · have hqd1 : s / 32 < (s + w - 1) / 32 := by omega
    rw [if_pos hc]
    simp only [AleEntry.get_setw]
    rw [if_neg (by omega : ¬ min (2 - s / 32) 2 = min (2 - (s + w - 1) / 32) 2)]
    by_cases hbq : b / 32 = s / 32
    · rw [if_pos (by omega), hbq]
      have hs1 : s - s / 32 * 32 = s % 32 := by omega
      rw [hs1]
      exact testBit_patch_low _ hval (by omega)
    · rw [if_neg (by omega)]
      by_cases hbd : b / 32 = (s + w - 1) / 32
      · rw [if_pos (by omega), hbd]
        have hk : w + s - (s + w - 1) / 32 * 32 ≤ b % 32 := by omega
        have hw2 : w ≤ (s + w - 1) / 32 * 32 - s + b % 32 := by omega
        exact testBit_patch_high _ hval hk hw2
      · rw [if_neg (by omega)]
  · rw [if_neg hc]
    simp only [AleEntry.get_setw]
    by_cases hbq : b / 32 = s / 32
    · rw [if_pos (by omega), hbq]
      have hs1 : s - s / 32 * 32 = s % 32 := by omega
      rw [hs1]
      exact testBit_patch_low _ hval (by omega)
    · rw [if_neg (by omega)]

theorem hi_lo_sum_lt {a H lo : Nat} (hH : H < 2 ^ a) (hlo : lo < 2 ^ (32 - a))
    (ha : a ≤ 32) : 2 ^ (32 - a) * H + lo < 2 ^ 32 := by
  have hmul : 2 ^ (32 - a) * H ≤ 2 ^ (32 - a) * (2 ^ a - 1) :=
    Nat.mul_le_mul_left _ (by omega)
  have hmul2 : 2 ^ (32 - a) * (2 ^ a - 1) + 2 ^ (32 - a) = 2 ^ (32 - a) * 2 ^ a := by
    rw [← Nat.mul_succ]
    congr 1
    have := Nat.two_pow_pos a
    omega
  have hpow : (2 : Nat) ^ (32 - a) * 2 ^ a = 2 ^ 32 := by
    rw [← pow_add]; congr 1; omega
  omega

/-- Bit-level characterization of get_field: for fields of width at most
32 bits, bit i of the result is entry bit start+i. -/
theorem testBit_get_field {e : AleEntry} (hwf : e.Wf) (s w : Nat)
    (hw32 : w ≤ 32) (h96 : s + w ≤ 96) (i : Nat) :
    (cpsw_ale_get_field e s w).testBit i
      = (decide (i < w) && entryBit e (s + i)) := by
  rcases Nat.eq_zero_or_pos w with hw0 | hw
  · subst hw0
    rw [get_field_width_zero]
    simp
  rcases Nat.lt_or_ge 32 (s % 32 + w) with hstr | hns
  · rw [get_field_straddle e s w hstr (by omega) h96]
    rw [shiftLeft_mod_two_pow _ (show 32 - s % 32 ≤ 32 by omega)]
    rw [show 32 - (32 - s % 32) = s % 32 from by omega]
    rw [Nat.shiftRight_eq_div_pow]
    have hlo : e.get (2 - s / 32) / 2 ^ (s % 32) < 2 ^ (32 - s % 32) := by
      rw [Nat.div_lt_iff_lt_mul (Nat.two_pow_pos _), ← pow_add]
      refine lt_of_lt_of_le (hwf.get_lt _) (le_of_eq ?_)
      congr 1
      omega
    have hH : e.get (1 - s / 32) % 2 ^ (s % 32) < 2 ^ (s % 32) :=
      Nat.mod_lt _ (Nat.two_pow_pos _)
    rw [Nat.mod_eq_of_lt (hi_lo_sum_lt hH hlo (by omega))]
    rw [and_BITMASK, Nat.testBit_mod_two_pow]
    rw [Nat.testBit_mul_pow_two_add _ hlo i]
    by_cases hiw : i < w
    · simp only [decide_eq_true_eq, hiw, decide_True, Bool.true_and]
      rcases Nat.lt_or_ge i (32 - s % 32) with hi | hi
      · rw [if_pos hi, ← Nat.shiftRight_eq_div_pow, Nat.testBit_shiftRight]
        unfold entryBit
        rw [show (s + i) / 32 = s / 32 from by omega,
          show (s + i) % 32 = s % 32 + i from by omega]
      · rw [if_neg (Nat.not_lt.mpr hi), Nat.testBit_mod_two_pow]
        have hlt : i - (32 - s % 32) < s % 32 := by omega
        unfold entryBit
        rw [show (s + i) / 32 = s / 32 + 1 from by omega,
          show 2 - (s / 32 + 1) = 1 - s / 32 from by omega,
          show (s + i) % 32 = i - (32 - s % 32) from by omega]
        simp [hlt]
    · simp [hiw]
  · rw [get_field_no_straddle e s w hw hns]
    rw [and_BITMASK, Nat.testBit_mod_two_pow, Nat.testBit_mod_two_pow,
      Nat.testBit_shiftRight]
    by_cases hiw : i < w
    · simp only [decide_eq_true_eq, hiw, decide_True, Bool.true_and,
        show i < 32 from by omega, Bool.and_true]
      unfold entryBit
      rw [show (s + i) / 32 = s / 32 from by omega,
        show (s + i) % 32 = s % 32 + i from by omega]
    · simp [hiw]

/-- Reading one field is unaffected by storing a disjoint field. -/
theorem get_set_disjoint (e : AleEntry) (s w s2 w2 v : Nat) (hwf : e.Wf)
    (hw32 : w ≤ 32) (h96 : s + w ≤ 96) (hw2 : 1 ≤ w2) (h96b : s2 + w2 ≤ 96)
    (hdisj : s + w ≤ s2 ∨ s2 + w2 ≤ s) :
    cpsw_ale_get_field (cpsw_ale_set_field e s2 w2 v) s w
      = cpsw_ale_get_field e s w := by
  apply Nat.eq_of_testBit_eq
  intro i
  rw [testBit_get_field (set_field_wf hwf s2 w2 v) s w hw32 h96 i,
    testBit_get_field hwf s w hw32 h96 i]
  by_cases hiw : i < w
  · simp only [hiw, decide_True, Bool.true_and]
    exact entryBit_set_field_outside e s2 w2 v (s + i) hw2 h96b (by omega)
      (by omega)
  · simp [hiw]

/-! ## Entry type and field constants (from cpsw_ale.c) -/

def ALE_TYPE_FREE : Nat := 0
def ALE_TYPE_ADDR : Nat := 1
def ALE_TYPE_VLAN : Nat := 2
def ALE_TYPE_VLAN_ADDR : Nat := 3

def ALE_UCAST_PERSISTANT : Nat := 0
def ALE_UCAST_UNTOUCHED : Nat := 1
def ALE_UCAST_OUI : Nat := 2
def ALE_UCAST_TOUCHED : Nat := 3

/-- Modelled from the spec: flag bits of the public ALE entry API declared
in the header cpsw_ale.h, which is not part of the sources; the low four
flag bits select secure, blocked, super and VLAN-keyed behaviour. -/
def ALE_SECURE : Nat := 1
def ALE_BLOCKED : Nat := 2
def ALE_SUPER : Nat := 4
def ALE_VLAN : Nat := 8

/-- Modelled from the spec: the host port is port 0, so the host port bit of
a port mask is bit 0 (ALE_PORT_HOST in the header, not part of the sources). -/
def ALE_PORT_HOST : Nat := 1

/-- Linux errno values used by the driver (errno.h, not part of the sources). -/
def ENOENT : Int := 2
def ENOMEM : Int := 12
def EINVAL : Int := 22

/-! ## Register offsets -/

def ALE_CONTROL : Nat := 0x08
def ALE_PRESCALE : Nat := 0x10
def ALE_AGING_TIMER : Nat := 0x14
def ALE_UNKNOWNVLAN : Nat := 0x18
def ALE_PORTCTL : Nat := 0x40
def ALE_UNKNOWNVLAN_MEMBER : Nat := 0x90
def ALE_UNKNOWNVLAN_UNREG_MCAST_FLOOD : Nat := 0x94
def ALE_UNKNOWNVLAN_REG_MCAST_FLOOD : Nat := 0x98
def ALE_UNKNOWNVLAN_FORCE_UNTAG_EGRESS : Nat := 0x9C
def ALE_VLAN_MASK_MUX (reg : Nat) : Nat := 0xc0 + 0x4 * reg
def AM65_CPSW_ALE_THREAD_DEF_REG : Nat := 0x134
def ALE_AGING_TIMER_MASK : Nat := 2 ^ 24 - 1
def ALE_RATE_LIMIT_MIN_PPS : Nat := 1000
def NU_VLAN_UNREG_MCAST_IDX : Nat := 1

def CPSW_ALE_F_STATUS_REG : Nat := 1
def CPSW_ALE_F_HW_AUTOAGING : Nat := 2

/-! ## Fixed-position entry fields (DEFINE_ALE_FIELD macros) -/

def cpsw_ale_get_entry_type (e : AleEntry) : Nat := cpsw_ale_get_field e 60 2
def cpsw_ale_set_entry_type (e : AleEntry) (v : Nat) : AleEntry :=
  cpsw_ale_set_field e 60 2 v
def cpsw_ale_get_vlan_id (e : AleEntry) : Nat := cpsw_ale_get_field e 48 12
def cpsw_ale_set_vlan_id (e : AleEntry) (v : Nat) : AleEntry :=
  cpsw_ale_set_field e 48 12 v
def cpsw_ale_set_mcast_state (e : AleEntry) (v : Nat) : AleEntry :=
  cpsw_ale_set_field e 62 2 v
def cpsw_ale_get_port_mask (e : AleEntry) (bits : Nat) : Nat :=
  cpsw_ale_get_field e 66 bits
def cpsw_ale_set_port_mask (e : AleEntry) (v bits : Nat) : AleEntry :=
  cpsw_ale_set_field e 66 bits v
def cpsw_ale_get_super (e : AleEntry) : Nat := cpsw_ale_get_field e 65 1
def cpsw_ale_set_super (e : AleEntry) (v : Nat) : AleEntry :=
  cpsw_ale_set_field e 65 1 v
def cpsw_ale_get_ucast_type (e : AleEntry) : Nat := cpsw_ale_get_field e 62 2
def cpsw_ale_set_ucast_type (e : AleEntry) (v : Nat) : AleEntry :=
  cpsw_ale_set_field e 62 2 v
def cpsw_ale_set_port_num (e : AleEntry) (v bits : Nat) : AleEntry :=
  cpsw_ale_set_field e 66 bits v
def cpsw_ale_set_blocked (e : AleEntry) (v : Nat) : AleEntry :=
  cpsw_ale_set_field e 65 1 v
def cpsw_ale_set_secure (e : AleEntry) (v : Nat) : AleEntry :=
  cpsw_ale_set_field e 64 1 v
def cpsw_ale_get_mcast (e : AleEntry) : Nat := cpsw_ale_get_field e 40 1

/-- cpsw_ale_get_addr: the six MAC address bytes, most significant first. -/
def cpsw_ale_get_addr (e : AleEntry) : List Nat :=
  [cpsw_ale_get_field e 40 8, cpsw_ale_get_field e 32 8,
   cpsw_ale_get_field e 24 8, cpsw_ale_get_field e 16 8,
   cpsw_ale_get_field e 8 8, cpsw_ale_get_field e 0 8]

/-- cpsw_ale_set_addr: store the six MAC address bytes. -/
def cpsw_ale_set_addr (e : AleEntry) (addr : List Nat) : AleEntry :=
  let e := cpsw_ale_set_field e 40 8 (addr.getD 0 0)
  let e := cpsw_ale_set_field e 32 8 (addr.getD 1 0)
  let e := cpsw_ale_set_field e 24 8 (addr.getD 2 0)
  let e := cpsw_ale_set_field e 16 8 (addr.getD 3 0)
  let e := cpsw_ale_set_field e 8 8 (addr.getD 4 0)
  cpsw_ale_set_field e 0 8 (addr.getD 5 0)

/-! ## Variant-dependent VLAN entry field tables -/

structure AleEntryFld where
  start_bit : Nat
  num_bits : Nat
  flags : Nat
deriving DecidableEq, Repr

def ALE_ENT_VID_MEMBER_LIST : Nat := 0
def ALE_ENT_VID_UNREG_MCAST_MSK : Nat := 1
def ALE_ENT_VID_REG_MCAST_MSK : Nat := 2
def ALE_ENT_VID_FORCE_UNTAGGED_MSK : Nat := 3
def ALE_ENT_VID_UNREG_MCAST_IDX : Nat := 4
def ALE_ENT_VID_REG_MCAST_IDX : Nat := 5

def ALE_FLD_ALLOWED : Nat := 1
def ALE_FLD_SIZE_PORT_MASK_BITS : Nat := 2

/-- vlan_entry_cpsw: dm814x, am3/am4/am5, k2hk; indices not initialized in
the C array designators are zero-filled, hence not allowed. -/
def vlan_entry_cpsw : Nat → AleEntryFld
  | 0 => ⟨0, 3, 1⟩
  | 1 => ⟨8, 3, 1⟩
  | 2 => ⟨16, 3, 1⟩
  | 3 => ⟨24, 3, 1⟩
  | _ => ⟨0, 0, 0⟩

/-- vlan_entry_nu: k2e/k2l, k3 am65/j721e cpsw2g. -/
def vlan_entry_nu : Nat → AleEntryFld
  | 0 => ⟨0, 0, 3⟩
  | 3 => ⟨24, 0, 3⟩
  | 4 => ⟨20, 3, 1⟩
  | 5 => ⟨44, 3, 1⟩
  | _ => ⟨0, 0, 0⟩

/-- vlan_entry_k3_cpswxg: K3 j721e/j7200 cpsw9g/5g, am64x cpsw3g. -/
def vlan_entry_k3_cpswxg : Nat → AleEntryFld
  | 0 => ⟨0, 0, 3⟩
  | 1 => ⟨12, 0, 3⟩
  | 2 => ⟨36, 0, 3⟩
  | 3 => ⟨24, 0, 3⟩
  | _ => ⟨0, 0, 0⟩

/-! ## Engine state

The register transport (regmap / readl / writel) is the supplied
register-access capability; the table itself is addressed through the
index-control protocol, modelled as a map from index to 96-bit entry. -/

structure cpsw_ale where
  ale_entries : Nat
  ale_ports : Nat
  nu_switch_ale : Bool
  bus_freq : Nat
  ale_ageout : Nat
  features : Nat
  port_mask_bits : Nat
  port_num_bits : Nat
  vlan_field_bits : Nat
  vlan_entry_tbl : Nat → AleEntryFld
  tbl : Nat → AleEntry
  regs : Nat → Nat
  p0_untag_vid_mask : Nat → Bool
  timer_armed : Bool

/-- cpsw_ale_read: latch an index and read the three data words. -/
def cpsw_ale_read (ale : cpsw_ale) (idx : Nat) : AleEntry := ale.tbl idx

/-- cpsw_ale_write: write the three data words, then commit them to the
given index with the write-enable bit. -/
def cpsw_ale_write (ale : cpsw_ale) (idx : Nat) (e : AleEntry) : cpsw_ale :=
  { ale with tbl := fun j => if j = idx then e else ale.tbl j }

/-- A 32-bit register read at an offset of the ALE register window. -/
def readl (ale : cpsw_ale) (off : Nat) : Nat := ale.regs off

/-- A 32-bit register write at an offset of the ALE register window. -/
def writel (ale : cpsw_ale) (v off : Nat) : cpsw_ale :=
  { ale with regs := fun o => if o = off then v else ale.regs o }

/-! ## Linear table scans -/

/-- First index i with start ≤ i < start + fuel satisfying p, scanning in
ascending order. -/
def scanFirstAux (p : Nat → Bool) : Nat → Nat → Option Nat
  | _, 0 => none
  | i, fuel + 1 => if p i then some i else scanFirstAux p (i + 1) fuel

/-- First index below n satisfying p. -/
def scanFirst (p : Nat → Bool) (n : Nat) : Option Nat := scanFirstAux p 0 n

/-- cpsw_ale_match_addr: first entry of unicast-address type whose VLAN id
and MAC address match; the C function returns -ENOENT on a miss, modelled
as none. -/
def cpsw_ale_match_addr (ale : cpsw_ale) (addr : List Nat) (vid : Nat) :
    Option Nat :=
  scanFirst (fun idx =>
    let e := cpsw_ale_read ale idx
    (decide (cpsw_ale_get_entry_type e = ALE_TYPE_ADDR) ||
      decide (cpsw_ale_get_entry_type e = ALE_TYPE_VLAN_ADDR)) &&
    decide (cpsw_ale_get_vlan_id e = vid) &&
    decide (cpsw_ale_get_addr e = addr)) ale.ale_entries

/-- cpsw_ale_match_vlan: first entry of VLAN type with the given VLAN id. -/
def cpsw_ale_match_vlan (ale : cpsw_ale) (vid : Nat) : Option Nat :=
  scanFirst (fun idx =>
    let e := cpsw_ale_read ale idx
    decide (cpsw_ale_get_entry_type e = ALE_TYPE_VLAN) &&
    decide (cpsw_ale_get_vlan_id e = vid)) ale.ale_entries

/-- cpsw_ale_match_free: first free entry. -/
def cpsw_ale_match_free (ale : cpsw_ale) : Option Nat :=
  scanFirst (fun idx =>
    decide (cpsw_ale_get_entry_type (cpsw_ale_read ale idx) = ALE_TYPE_FREE))
    ale.ale_entries

/-- cpsw_ale_find_ageable: first non-multicast unicast-address entry whose
unicast type is neither persistent nor OUI. -/
def cpsw_ale_find_ageable (ale : cpsw_ale) : Option Nat :=
  scanFirst (fun idx =>
    let e := cpsw_ale_read ale idx
    (decide (cpsw_ale_get_entry_type e = ALE_TYPE_ADDR) ||
      decide (cpsw_ale_get_entry_type e = ALE_TYPE_VLAN_ADDR)) &&
    decide (cpsw_ale_get_mcast e = 0) &&
    decide (cpsw_ale_get_ucast_type e ≠ ALE_UCAST_PERSISTANT) &&
    decide (cpsw_ale_get_ucast_type e ≠ ALE_UCAST_OUI)) ale.ale_entries

/-! ## C int bitwise semantics

The VLAN helpers keep C int values (field reads can be the error value
-ENOENT).  Two's complement bitwise operations on Int: negSucc n carries
the bit pattern of the complement of n. -/

/-- C bitwise AND on int. -/
def intAnd : Int → Int → Int
  | .ofNat a, .ofNat b => .ofNat (a &&& b)
  | .ofNat a, .negSucc b => .ofNat (cAndNot a b)
  | .negSucc a, .ofNat b => .ofNat (cAndNot b a)
  | .negSucc a, .negSucc b => .negSucc (a ||| b)

/-- C bitwise OR on int. -/
def intOr : Int → Int → Int
  | .ofNat a, .ofNat b => .ofNat (a ||| b)
  | .ofNat a, .negSucc b => .negSucc (cAndNot b a)
  | .negSucc a, .ofNat b => .negSucc (cAndNot a b)
  | .negSucc a, .negSucc b => .negSucc (a &&& b)

/-- C implicit conversion from int to u32: reduce mod 2^32. -/
def intToU32 (i : Int) : Nat := (i % 2 ^ 32).toNat

/-! ## Variant-parameterized entry field access -/

/-- cpsw_ale_entry_get_fld: read a variant-described field; a field the
active variant does not provide yields the error value -ENOENT, which the
C callers store into an int alongside ordinary field values. -/
def cpsw_ale_entry_get_fld (ale : cpsw_ale) (e : AleEntry)
    (entry_tbl : Nat → AleEntryFld) (fld_id : Nat) : Int :=
  let entry_fld := entry_tbl fld_id
  if entry_fld.flags &&& ALE_FLD_ALLOWED = 0 then -ENOENT
  else
    let bits := if entry_fld.flags &&& ALE_FLD_SIZE_PORT_MASK_BITS ≠ 0 then
      ale.port_mask_bits else entry_fld.num_bits
    Int.ofNat (cpsw_ale_get_field e entry_fld.start_bit bits)

/-- cpsw_ale_entry_set_fld: write a variant-described field; a disallowed
field is logged and the entry left unchanged. -/
def cpsw_ale_entry_set_fld (ale : cpsw_ale) (e : AleEntry)
    (entry_tbl : Nat → AleEntryFld) (fld_id : Nat) (value : Nat) : AleEntry :=
  let entry_fld := entry_tbl fld_id
  if entry_fld.flags &&& ALE_FLD_ALLOWED = 0 then e
  else
    let bits := if entry_fld.flags &&& ALE_FLD_SIZE_PORT_MASK_BITS ≠ 0 then
      ale.port_mask_bits else entry_fld.num_bits
    cpsw_ale_set_field e entry_fld.start_bit bits value

def cpsw_ale_vlan_get_fld (ale : cpsw_ale) (e : AleEntry) (fld_id : Nat) :
    Int :=
  cpsw_ale_entry_get_fld ale e ale.vlan_entry_tbl fld_id

def cpsw_ale_vlan_set_fld (ale : cpsw_ale) (e : AleEntry) (fld_id : Nat)
    (value : Nat) : AleEntry :=
  cpsw_ale_entry_set_fld ale e ale.vlan_entry_tbl fld_id value

/-! ## Entry policy engine -/

/-- cpsw_ale_set_vlan_entry_type. -/
def cpsw_ale_set_vlan_entry_type (e : AleEntry) (flags vid : Nat) : AleEntry :=
  if flags &&& ALE_VLAN ≠ 0 then
    cpsw_ale_set_vlan_id (cpsw_ale_set_entry_type e ALE_TYPE_VLAN_ADDR) vid
  else
    cpsw_ale_set_entry_type e ALE_TYPE_ADDR

/-- cpsw_ale_add_ucast.  The C fallthrough over candidate indices (match,
free, ageable) is written as a nested match with identical semantics. -/
def cpsw_ale_add_ucast (ale : cpsw_ale) (addr : List Nat)
    (port flags vid : Nat) : Int × cpsw_ale :=
  let e := cpsw_ale_set_vlan_entry_type (⟨0, 0, 0⟩ : AleEntry) flags vid
  let e := cpsw_ale_set_addr e addr
  let e := cpsw_ale_set_ucast_type e ALE_UCAST_PERSISTANT
  let e := cpsw_ale_set_secure e (if flags &&& ALE_SECURE ≠ 0 then 1 else 0)
  let e := cpsw_ale_set_blocked e (if flags &&& ALE_BLOCKED ≠ 0 then 1 else 0)
  let e := cpsw_ale_set_port_num e port ale.port_num_bits
  match cpsw_ale_match_addr ale addr (if flags &&& ALE_VLAN ≠ 0 then vid else 0) with
  | some i => (0, cpsw_ale_write ale i e)
  | none =>
    match cpsw_ale_match_free ale with
    | some i => (0, cpsw_ale_write ale i e)
    | none =>
      match cpsw_ale_find_ageable ale with
      | some i => (0, cpsw_ale_write ale i e)
      | none => (-ENOMEM, ale)

/-- cpsw_ale_del_ucast. -/
def cpsw_ale_del_ucast (ale : cpsw_ale) (addr : List Nat)
    (port flags vid : Nat) : Int × cpsw_ale :=
  match cpsw_ale_match_addr ale addr (if flags &&& ALE_VLAN ≠ 0 then vid else 0) with
  | none => (-ENOENT, ale)
  | some i =>
    (0, cpsw_ale_write ale i
      (cpsw_ale_set_entry_type (⟨0, 0, 0⟩ : AleEntry) ALE_TYPE_FREE))

/-- cpsw_ale_add_mcast: merge the incoming port mask into the existing one
when the key already has an entry. -/
def cpsw_ale_add_mcast (ale : cpsw_ale) (addr : List Nat)
    (port_mask flags vid mcast_state : Nat) : Int × cpsw_ale :=
  let idxOpt := cpsw_ale_match_addr ale addr
    (if flags &&& ALE_VLAN ≠ 0 then vid else 0)
  let e := match idxOpt with
    | some i => cpsw_ale_read ale i
    | none => (⟨0, 0, 0⟩ : AleEntry)
  let e := cpsw_ale_set_vlan_entry_type e flags vid
  let e := cpsw_ale_set_addr e addr
  let e := cpsw_ale_set_super e (if flags &&& ALE_SUPER ≠ 0 then 1 else 0)
  let e := cpsw_ale_set_mcast_state e mcast_state
  let mask := cpsw_ale_get_port_mask e ale.port_mask_bits
  let port_mask := port_mask ||| mask
  let e := cpsw_ale_set_port_mask e port_mask ale.port_mask_bits
  match idxOpt with
  | some i => (0, cpsw_ale_write ale i e)
  | none =>
    match cpsw_ale_match_free ale with
    | some i => (0, cpsw_ale_write ale i e)
    | none =>
      match cpsw_ale_find_ageable ale with
      | some i => (0, cpsw_ale_write ale i e)
      | none => (-ENOMEM, ale)

/-- cpsw_ale_del_mcast: mcast_members is computed only for a nonzero
port_mask argument, else it stays 0 and the entry is freed. -/
def cpsw_ale_del_mcast (ale : cpsw_ale) (addr : List Nat)
    (port_mask flags vid : Nat) : Int × cpsw_ale :=
  match cpsw_ale_match_addr ale addr (if flags &&& ALE_VLAN ≠ 0 then vid else 0) with
  | none => (-ENOENT, ale)
  | some idx =>
    let e := cpsw_ale_read ale idx
    let mcast_members :=
      if port_mask ≠ 0 then
        cAndNot (cpsw_ale_get_port_mask e ale.port_mask_bits) port_mask
      else 0
    let e :=
      if mcast_members ≠ 0 then
        cpsw_ale_set_port_mask e mcast_members ale.port_mask_bits
      else
        cpsw_ale_set_entry_type e ALE_TYPE_FREE
    (0, cpsw_ale_write ale idx e)

/-- cpsw_ale_set_vlan_mcast (NU switch): write the VLAN flood masks into
the side-table registers selected by the index fields of the entry.  A
negative index (disallowed field) is clamped by toNat; in C it would be a
wild register address. -/
def cpsw_ale_set_vlan_mcast (ale : cpsw_ale) (e : AleEntry)
    (reg_mcast unreg_mcast : Int) : cpsw_ale :=
  let idx := (cpsw_ale_vlan_get_fld ale e ALE_ENT_VID_REG_MCAST_IDX).toNat
  let ale := writel ale (intToU32 reg_mcast) (ALE_VLAN_MASK_MUX idx)
  let idx := (cpsw_ale_vlan_get_fld ale e ALE_ENT_VID_UNREG_MCAST_IDX).toNat
  writel ale (intToU32 unreg_mcast) (ALE_VLAN_MASK_MUX idx)

/-- cpsw_ale_set_vlan_untag: store the force-untagged mask and track the
host-port untag bit for this VLAN id in the handle bitmap. -/
def cpsw_ale_set_vlan_untag (ale : cpsw_ale) (e : AleEntry) (vid : Nat)
    (untag_mask : Int) : AleEntry × cpsw_ale :=
  let e := cpsw_ale_vlan_set_fld ale e ALE_ENT_VID_FORCE_UNTAGGED_MSK
    (intToU32 untag_mask)
  let ale :=
    if intAnd untag_mask (Int.ofNat ALE_PORT_HOST) ≠ 0 then
      { ale with p0_untag_vid_mask :=
          fun b => if b = vid then true else ale.p0_untag_vid_mask b }
    else
      { ale with p0_untag_vid_mask :=
          fun b => if b = vid then false else ale.p0_untag_vid_mask b }
  (e, ale)

/-- cpsw_ale_add_vlan. -/
def cpsw_ale_add_vlan (ale : cpsw_ale) (vid : Nat)
    (port_mask untag reg_mcast unreg_mcast : Nat) : Int × cpsw_ale :=
  let idxOpt := cpsw_ale_match_vlan ale vid
  let e := match idxOpt with
    | some i => cpsw_ale_read ale i
    | none => (⟨0, 0, 0⟩ : AleEntry)
  let e := cpsw_ale_set_entry_type e ALE_TYPE_VLAN
  let e := cpsw_ale_set_vlan_id e vid
  let p := cpsw_ale_set_vlan_untag ale e vid (Int.ofNat untag)
  let e := p.1
  let ale := p.2
  let p :=
    if ale.nu_switch_ale = false then
      (cpsw_ale_vlan_set_fld ale
        (cpsw_ale_vlan_set_fld ale e ALE_ENT_VID_REG_MCAST_MSK reg_mcast)
        ALE_ENT_VID_UNREG_MCAST_MSK unreg_mcast, ale)
    else
      let e := cpsw_ale_vlan_set_fld ale e ALE_ENT_VID_UNREG_MCAST_IDX
        NU_VLAN_UNREG_MCAST_IDX
      (e, cpsw_ale_set_vlan_mcast ale e (Int.ofNat reg_mcast)
        (Int.ofNat unreg_mcast))
  let e := p.1
  let ale := p.2
  let e := cpsw_ale_vlan_set_fld ale e ALE_ENT_VID_MEMBER_LIST port_mask
  match idxOpt with
  | some i => (0, cpsw_ale_write ale i e)
  | none =>
    match cpsw_ale_match_free ale with
    | some i => (0, cpsw_ale_write ale i e)
    | none =>
      match cpsw_ale_find_ageable ale with
      | some i => (0, cpsw_ale_write ale i e)
      | none => (-ENOMEM, ale)

/-- cpsw_ale_vlan_del_modify_int: remove port_mask from the member list;
free the entry when no member remains, else shrink untag and flood masks
to the remaining members and rewrite them. -/
def cpsw_ale_vlan_del_modify_int (ale : cpsw_ale) (e : AleEntry)
    (vid port_mask : Nat) : AleEntry × cpsw_ale :=
  let members := intAnd (cpsw_ale_vlan_get_fld ale e ALE_ENT_VID_MEMBER_LIST)
    (~~~(Int.ofNat port_mask))
  if members = 0 then
    let p := cpsw_ale_set_vlan_untag ale e vid 0
    (cpsw_ale_set_entry_type p.1 ALE_TYPE_FREE, p.2)
  else
    let untag := cpsw_ale_vlan_get_fld ale e ALE_ENT_VID_FORCE_UNTAGGED_MSK
    let reg_mcast := cpsw_ale_vlan_get_fld ale e ALE_ENT_VID_REG_MCAST_MSK
    let unreg_mcast := cpsw_ale_vlan_get_fld ale e ALE_ENT_VID_UNREG_MCAST_MSK
    let untag := intAnd untag members
    let reg_mcast := intAnd reg_mcast members
    let unreg_mcast := intAnd unreg_mcast members
    let p := cpsw_ale_set_vlan_untag ale e vid untag
    let e := p.1
    let ale := p.2
    let p :=
      if ale.nu_switch_ale = false then
        (cpsw_ale_vlan_set_fld ale
          (cpsw_ale_vlan_set_fld ale e ALE_ENT_VID_REG_MCAST_MSK
            (intToU32 reg_mcast))
          ALE_ENT_VID_UNREG_MCAST_MSK (intToU32 unreg_mcast), ale)
      else
        (e, cpsw_ale_set_vlan_mcast ale e reg_mcast unreg_mcast)
    let e := p.1
    let ale := p.2
    (cpsw_ale_vlan_set_fld ale e ALE_ENT_VID_MEMBER_LIST (intToU32 members),
      ale)

/-- cpsw_ale_vlan_del_modify. -/
def cpsw_ale_vlan_del_modify (ale : cpsw_ale) (vid port_mask : Nat) :
    Int × cpsw_ale :=
  match cpsw_ale_match_vlan ale vid with
  | none => (-ENOENT, ale)
  | some idx =>
    let e := cpsw_ale_read ale idx
    let p := cpsw_ale_vlan_del_modify_int ale e vid port_mask
    (0, cpsw_ale_write p.2 idx p.1)

/-- cpsw_ale_del_vlan: an empty port_mask (legacy force remove) or an
emptied member list frees the entry and clears the host untag bit; else
the ports (host port excluded) are removed from the entry. -/
def cpsw_ale_del_vlan (ale : cpsw_ale) (vid port_mask : Nat) :
    Int × cpsw_ale :=
  match cpsw_ale_match_vlan ale vid with
  | none => (-ENOENT, ale)
  | some idx =>
    let e := cpsw_ale_read ale idx
    let members := intAnd (cpsw_ale_vlan_get_fld ale e ALE_ENT_VID_MEMBER_LIST)
      (~~~(Int.ofNat port_mask))
    if port_mask = 0 ∨ members = 0 then
      let p := cpsw_ale_set_vlan_untag ale e vid 0
      (0, cpsw_ale_write p.2 idx (cpsw_ale_set_entry_type p.1 ALE_TYPE_FREE))
    else
      let port_mask := cAndNot port_mask ALE_PORT_HOST
      let p := cpsw_ale_vlan_del_modify_int ale e vid port_mask
      (0, cpsw_ale_write p.2 idx p.1)

/-! ## Named control-register abstraction

Control ids follow the initializer order of the static ale_controls array;
the numeric ids come from the enum in the header cpsw_ale.h, which is not
part of the sources.  The create-time patching of the four unknown-VLAN
descriptors on NU switches is not modelled; no claim touches them. -/

structure ale_control_info where
  offset : Nat
  port_offset : Nat
  shift : Nat
  port_shift : Nat
  bits : Nat
deriving DecidableEq, Repr

def ALE_ENABLE : Nat := 0
def ALE_CLEAR : Nat := 1
def ALE_AGEOUT : Nat := 2
def ALE_P0_UNI_FLOOD : Nat := 3
def ALE_VLAN_NOLEARN : Nat := 4
def ALE_NO_PORT_VLAN : Nat := 5
def ALE_OUI_DENY : Nat := 6
def ALE_BYPASS : Nat := 7
def ALE_RATE_LIMIT_TX : Nat := 8
def ALE_VLAN_AWARE : Nat := 9
def ALE_AUTH_ENABLE : Nat := 10
def ALE_RATE_LIMIT : Nat := 11
def ALE_PORT_STATE : Nat := 12
def ALE_PORT_DROP_UNTAGGED : Nat := 13
def ALE_PORT_DROP_UNKNOWN_VLAN : Nat := 14
def ALE_PORT_NOLEARN : Nat := 15
def ALE_PORT_NO_SA_UPDATE : Nat := 16
def ALE_PORT_MACONLY : Nat := 17
def ALE_PORT_MACONLY_CAF : Nat := 18
def ALE_PORT_MCAST_LIMIT : Nat := 19
def ALE_PORT_BCAST_LIMIT : Nat := 20
def ALE_PORT_UNKNOWN_VLAN_MEMBER : Nat := 21
def ALE_PORT_UNKNOWN_MCAST_FLOOD : Nat := 22
def ALE_PORT_UNKNOWN_REG_MCAST_FLOOD : Nat := 23
def ALE_PORT_UNTAGGED_EGRESS : Nat := 24
def ALE_DEFAULT_THREAD_ID : Nat := 25
def ALE_DEFAULT_THREAD_ENABLE : Nat := 26
def ALE_NUM_CONTROLS : Nat := 27

/-- The static ale_controls descriptor table (debug name strings omitted). -/
def ale_controls : Nat → ale_control_info
  | 0 => ⟨ALE_CONTROL, 0, 31, 0, 1⟩
  | 1 => ⟨ALE_CONTROL, 0, 30, 0, 1⟩
  | 2 => ⟨ALE_CONTROL, 0, 29, 0, 1⟩
  | 3 => ⟨ALE_CONTROL, 0, 8, 0, 1⟩
  | 4 => ⟨ALE_CONTROL, 0, 7, 0, 1⟩
  | 5 => ⟨ALE_CONTROL, 0, 6, 0, 1⟩
  | 6 => ⟨ALE_CONTROL, 0, 5, 0, 1⟩
  | 7 => ⟨ALE_CONTROL, 0, 4, 0, 1⟩
  | 8 => ⟨ALE_CONTROL, 0, 3, 0, 1⟩
  | 9 => ⟨ALE_CONTROL, 0, 2, 0, 1⟩
  | 10 => ⟨ALE_CONTROL, 0, 1, 0, 1⟩
  | 11 => ⟨ALE_CONTROL, 0, 0, 0, 1⟩
  | 12 => ⟨ALE_PORTCTL, 4, 0, 0, 2⟩
  | 13 => ⟨ALE_PORTCTL, 4, 2, 0, 1⟩
  | 14 => ⟨ALE_PORTCTL, 4, 3, 0, 1⟩
  | 15 => ⟨ALE_PORTCTL, 4, 4, 0, 1⟩
  | 16 => ⟨ALE_PORTCTL, 4, 5, 0, 1⟩
  | 17 => ⟨ALE_PORTCTL, 4, 11, 0, 1⟩
  | 18 => ⟨ALE_PORTCTL, 4, 13, 0, 1⟩
  | 19 => ⟨ALE_PORTCTL, 4, 16, 0, 8⟩
  | 20 => ⟨ALE_PORTCTL, 4, 24, 0, 8⟩
  | 21 => ⟨ALE_UNKNOWNVLAN, 0, 0, 0, 6⟩
  | 22 => ⟨ALE_UNKNOWNVLAN, 0, 8, 0, 6⟩
  | 23 => ⟨ALE_UNKNOWNVLAN, 0, 16, 0, 6⟩
  | 24 => ⟨ALE_UNKNOWNVLAN, 0, 24, 0, 6⟩
  | 25 => ⟨AM65_CPSW_ALE_THREAD_DEF_REG, 0, 0, 0, 6⟩
  | 26 => ⟨AM65_CPSW_ALE_THREAD_DEF_REG, 0, 15, 0, 1⟩
  | _ => ⟨0, 0, 0, 0, 0⟩

/-- cpsw_ale_control_set: resolve the descriptor, treat the port as 0 for a
global control, validate port and value, then masked read-modify-write. -/
def cpsw_ale_control_set (ale : cpsw_ale) (port : Int) (control value : Nat) :
    Int × cpsw_ale :=
  if ALE_NUM_CONTROLS ≤ control then (-EINVAL, ale)
  else
    let info := ale_controls control
    let port := if info.port_offset = 0 ∧ info.port_shift = 0 then 0 else port
    if port < 0 ∨ (ale.ale_ports : Int) ≤ port then (-EINVAL, ale)
    else
      let mask := BITMASK info.bits
      if cAndNot value mask ≠ 0 then (-EINVAL, ale)
      else
        let offset := info.offset + port.toNat * info.port_offset
        let shift := info.shift + port.toNat * info.port_shift
        let tmp := readl ale offset
        let tmp := cAndNot tmp ((mask <<< shift) % 2 ^ 32) |||
          (value <<< shift) % 2 ^ 32
        (0, writel ale tmp offset)

/-- cpsw_ale_control_get: same resolution and port validation, no value
check; returns the masked field value. -/
def cpsw_ale_control_get (ale : cpsw_ale) (port : Int) (control : Nat) :
    Int :=
  if ALE_NUM_CONTROLS ≤ control then -EINVAL
  else
    let info := ale_controls control
    let port := if info.port_offset = 0 ∧ info.port_shift = 0 then 0 else port
    if port < 0 ∨ (ale.ale_ports : Int) ≤ port then -EINVAL
    else
      let offset := info.offset + port.toNat * info.port_offset
      let shift := info.shift + port.toNat * info.port_shift
      Int.ofNat (readl ale offset >>> shift &&& BITMASK info.bits)

/-- cpsw_ale_rx_ratelimit_mc: convert pps to multiples of the 1000 pps
granularity; reject a nonzero rate that rounds to zero; an uneven rate is
only logged.  The result of the control write is discarded. -/
def cpsw_ale_rx_ratelimit_mc (ale : cpsw_ale) (port : Int)
    (ratelimit_pps : Nat) : Int × cpsw_ale :=
  let val := ratelimit_pps / ALE_RATE_LIMIT_MIN_PPS
  if ratelimit_pps ≠ 0 ∧ val = 0 then (-EINVAL, ale)
  else
    let p := cpsw_ale_control_set ale port ALE_PORT_MCAST_LIMIT val
    (0, p.2)

/-- cpsw_ale_rx_ratelimit_bc: broadcast variant of the rate limiter. -/
def cpsw_ale_rx_ratelimit_bc (ale : cpsw_ale) (port : Int)
    (ratelimit_pps : Nat) : Int × cpsw_ale :=
  let val := ratelimit_pps / ALE_RATE_LIMIT_MIN_PPS
  if ratelimit_pps ≠ 0 ∧ val = 0 then (-EINVAL, ale)
  else
    let p := cpsw_ale_control_set ale port ALE_PORT_BCAST_LIMIT val
    (0, p.2)

/-! ## Aging subsystem -/

/-- cpsw_ale_hw_aging_timer_start: aging ticks are computed in 32-bit
arithmetic from the bus frequency in MHz times the ageout seconds, clamped
to the 24-bit timer field (with a warning) and written once. -/
def cpsw_ale_hw_aging_timer_start (ale : cpsw_ale) : cpsw_ale :=
  let aging_timer := ale.bus_freq / 1000000 % 2 ^ 32
  let aging_timer := aging_timer * ale.ale_ageout % 2 ^ 32
  let aging_timer :=
    if cAndNot aging_timer ALE_AGING_TIMER_MASK ≠ 0 then ALE_AGING_TIMER_MASK
    else aging_timer
  writel ale aging_timer ALE_AGING_TIMER

/-- cpsw_ale_hw_aging_timer_stop: write 0 to the timer register. -/
def cpsw_ale_hw_aging_timer_stop (ale : cpsw_ale) : cpsw_ale :=
  writel ale 0 ALE_AGING_TIMER

/-- cpsw_ale_aging_start: no-op for a zero ageout interval; hardware
auto-aging variants program the timer register, others arm the periodic
software timer. -/
def cpsw_ale_aging_start (ale : cpsw_ale) : cpsw_ale :=
  if ale.ale_ageout = 0 then ale
  else if ale.features &&& CPSW_ALE_F_HW_AUTOAGING ≠ 0 then
    cpsw_ale_hw_aging_timer_start ale
  else
    { ale with timer_armed := true }

/-- cpsw_ale_aging_stop: no-op for a zero ageout interval; hardware
auto-aging variants zero the timer register, others cancel the software
timer and wait for it. -/
def cpsw_ale_aging_stop (ale : cpsw_ale) : cpsw_ale :=
  if ale.ale_ageout = 0 then ale
  else if ale.features &&& CPSW_ALE_F_HW_AUTOAGING ≠ 0 then
    cpsw_ale_hw_aging_timer_stop ale
  else
    { ale with timer_armed := false }

/-! ## Scan lemmas -/

theorem scanFirstAux_eq_none_iff (p : Nat → Bool) (f i : Nat) :
    scanFirstAux p i f = none ↔ ∀ j, i ≤ j → j < i + f → p j = false := by
  induction f generalizing i with
  | zero =>
    constructor
    · intro _ j h1 h2
      omega
    · intro _
      rfl
  | succ f ih =>
    simp only [scanFirstAux]
    by_cases hp : p i = true
    · rw [if_pos hp]
      constructor
      · intro h
        exact absurd h (Option.some_ne_none i)
      · intro h
        have hf := h i (le_refl i) (by omega)
        rw [hf] at hp
        exact Bool.noConfusion hp
    · have hpf : p i = false := by
        revert hp
        cases p i <;> simp
      rw [if_neg hp, ih]
      constructor
      · intro h j h1 h2
        rcases Nat.eq_or_lt_of_le h1 with rfl | h1
        · exact hpf
        · exact h j h1 (by omega)
      · intro h j h1 h2
        exact h j (by omega) (by omega)

theorem scanFirstAux_eq_some_iff (p : Nat → Bool) (f i k : Nat) :
    scanFirstAux p i f = some k ↔
      i ≤ k ∧ k < i + f ∧ p k = true ∧ ∀ j, i ≤ j → j < k → p j = false := by
  induction f generalizing i with
  | zero =>
    constructor
    · intro h
      exact absurd h (by intro hc; exact Option.noConfusion hc)
    · intro h
      omega
  | succ f ih =>
    simp only [scanFirstAux]
    by_cases hp : p i = true
    · rw [if_pos hp]
      constructor
      · intro h
        have hik : i = k := Option.some_inj.mp h
        subst hik
        exact ⟨le_refl _, by omega, hp, fun j h1 h2 => by omega⟩
      · rintro ⟨h1, _, _, h4⟩
        rcases Nat.eq_or_lt_of_le h1 with rfl | h1
        · rfl
        · have hf := h4 i (le_refl i) h1
          rw [hf] at hp
          exact Bool.noConfusion hp
    · have hpf : p i = false := by
        revert hp
        cases p i <;> simp
      rw [if_neg hp, ih]
      constructor
      · rintro ⟨h1, h2, h3, h4⟩
        refine ⟨by omega, by omega, h3, fun j hj1 hj2 => ?_⟩
        rcases Nat.eq_or_lt_of_le hj1 with rfl | hj1
        · exact hpf
        · exact h4 j hj1 hj2
      · rintro ⟨h1, h2, h3, h4⟩
        have hik : i ≠ k := by
          rintro rfl
          rw [h3] at hpf
          exact Bool.noConfusion hpf
        exact ⟨by omega, by omega, h3, fun j hj1 hj2 => h4 j (by omega) hj2⟩

theorem scanFirst_eq_none_iff (p : Nat → Bool) (n : Nat) :
    scanFirst p n = none ↔ ∀ j, j < n → p j = false := by
  rw [scanFirst, scanFirstAux_eq_none_iff]
  constructor
  · intro h j hj
    exact h j (by omega) (by omega)
  · intro h j _ hj
    exact h j (by omega)

theorem scanFirst_eq_some_iff (p : Nat → Bool) (n k : Nat) :
    scanFirst p n = some k ↔
      k < n ∧ p k = true ∧ ∀ j, j < k → p j = false := by
  rw [scanFirst, scanFirstAux_eq_some_iff]
  constructor
  · rintro ⟨_, h2, h3, h4⟩
    exact ⟨by omega, h3, fun j hj => h4 j (by omega) hj⟩
  · rintro ⟨h1, h2, h3⟩
    exact ⟨by omega, by omega, h2, fun j _ hj => h3 j hj⟩

/-- If some index below n satisfies p, the scan returns the least one. -/
theorem scanFirst_isSome (p : Nat → Bool) (n : Nat)
    (h : ∃ j, j < n ∧ p j = true) : ∃ k, scanFirst p n = some k := by
  rcases h with ⟨j, hj, hp⟩
  cases hs : scanFirst p n with
  | some k => exact ⟨k, rfl⟩
  | none =>
    rw [scanFirst_eq_none_iff] at hs
    rw [hs j hj] at hp
    exact absurd hp (by simp)

/-- Read-back of a masked read-modify-write register field. -/
theorem rmw_field_get (r v s bits : Nat) (hv : v < 2 ^ bits)
    (hsb : s + bits ≤ 32) :
    (Nat.ldiff r ((BITMASK bits <<< s) % 2 ^ 32) ||| (v <<< s) % 2 ^ 32) >>> s
      &&& BITMASK bits = v := by
  apply Nat.eq_of_testBit_eq
  intro i
  simp only [Nat.testBit_and, Nat.testBit_shiftRight, Nat.testBit_lor,
    Nat.testBit_ldiff, Nat.testBit_mod_two_pow, Nat.testBit_shiftLeft,
    BITMASK_eq, Nat.testBit_two_pow_sub_one]
  by_cases hib : i < bits
  · have h1 : s + i < 32 := by omega
    have h2 : s ≤ s + i := Nat.le_add_right s i
    have h3 : s + i - s = i := by omega
    simp [h1, h2, h3, hib]
  · have hvi : v.testBit i = false :=
      Nat.testBit_lt_two_pow
        (lt_of_lt_of_le hv (Nat.pow_le_pow_right (by omega) (by omega)))
    simp [hib, hvi]

/-- One-bit reads are exactly entry bits. -/
theorem get_field_one_bit (e : AleEntry) (b : Nat) (hb : b < 96) :
    cpsw_ale_get_field e b 1 = (entryBit e b).toNat := by
  rw [get_field_no_straddle e b 1 (le_refl 1) (by omega)]
  rw [BITMASK_eq]
  have h1 : (2 : Nat) ^ 1 - 1 = 1 := by norm_num
  rw [h1, Nat.and_one_is_mod, Nat.mod_mod_of_dvd _ (by norm_num : (2 : Nat) ∣ 2 ^ 32)]
  rw [Nat.shiftRight_eq_div_pow, entryBit, Nat.toNat_testBit]

/-! ## Claim C2 (corrected) -/

/-- C2 counterexample: a field of width 64 at start 16 spans three 32-bit
words; the code only touches two of them, so the round trip fails at
value 2^16 even though 0 ≤ 16 and 16 + 64 ≤ 96. -/
theorem C2_field_roundtrip_counterexample :
    16 + 64 ≤ 96 ∧
    cpsw_ale_get_field
        (cpsw_ale_set_field (⟨0, 0, 0⟩ : AleEntry) 16 64 65536) 16 64
      ≠ 65536 &&& BITMASK 64 := by
  constructor
  · decide
  · decide

/-- C2 (amended): for every well-formed 3-word entry buffer, every field
that spans at most two 32-bit words (start % 32 + width ≤ 64, and
start + width ≤ 96), and every 32-bit value v, set_field then get_field
returns v masked to the low width bits; out-of-range v is silently
truncated, with no error. -/
theorem C2_field_roundtrip (e : AleEntry) (s w v : Nat) (hwf : e.Wf)
    (hspan : s % 32 + w ≤ 64) (h96 : s + w ≤ 96) (hv : v < 2 ^ 32) :
    cpsw_ale_get_field (cpsw_ale_set_field e s w v) s w = v &&& BITMASK w :=
  get_set_same e s w v hwf hspan h96 hv

/-- C2 witness: the boundary-crossing field start 28 width 8 round-trips a
wide value, truncated to 8 bits, in a nonzero entry. -/
theorem C2_field_roundtrip_witness :
    cpsw_ale_get_field
        (cpsw_ale_set_field (⟨0xdeadbeef, 0x12345678, 0xcafebabe⟩ : AleEntry)
          28 8 0x1AB) 28 8 = 0x1AB &&& BITMASK 8 :=
  C2_field_roundtrip ⟨0xdeadbeef, 0x12345678, 0xcafebabe⟩ 28 8 0x1AB
    (by decide) (by decide) (by decide) (by decide)

/-! ## Claim C3 (corrected) -/

/-- C3 counterexample: set_field with the in-range pair start 32, width 0
clears all of entry bits 0..31; bit 0 is outside the empty range
[32, 32) yet changes. -/
theorem C3_frame_counterexample :
    32 + 0 ≤ 96 ∧ (0 < 32 ∨ 32 + 0 ≤ 0) ∧
    cpsw_ale_get_field (cpsw_ale_set_field (⟨0, 0, 1⟩ : AleEntry) 32 0 0) 0 1
      ≠ cpsw_ale_get_field (⟨0, 0, 1⟩ : AleEntry) 0 1 := by
  refine ⟨by decide, Or.inl (by decide), by decide⟩

/-- C3 (amended): for every entry buffer, every in-range field of nonzero
width (1 ≤ width, start + width ≤ 96) — including the word-boundary
crossing start 28 width 8 — and every value, each bit position outside
[start, start + width) reads the same before and after set_field. -/
theorem C3_frame (e : AleEntry) (s w v b : Nat) (hw : 1 ≤ w)
    (h96 : s + w ≤ 96) (hb : b < 96) (hout : b < s ∨ s + w ≤ b) :
    cpsw_ale_get_field (cpsw_ale_set_field e s w v) b 1
      = cpsw_ale_get_field e b 1 := by
  rw [get_field_one_bit _ b hb, get_field_one_bit e b hb,
    entryBit_set_field_outside e s w v b hw h96 hb hout]

/-- C3 witness: storing through the boundary-crossing field start 28
width 8 leaves bit 27 and bit 36 of a concrete entry unchanged. -/
theorem C3_frame_witness :
    cpsw_ale_get_field
        (cpsw_ale_set_field (⟨0xffffffff, 0xffffffff, 0xffffffff⟩ : AleEntry)
          28 8 0) 27 1
      = cpsw_ale_get_field (⟨0xffffffff, 0xffffffff, 0xffffffff⟩ : AleEntry)
          27 1 ∧
    cpsw_ale_get_field
        (cpsw_ale_set_field (⟨0xffffffff, 0xffffffff, 0xffffffff⟩ : AleEntry)
          28 8 0) 36 1
      = cpsw_ale_get_field (⟨0xffffffff, 0xffffffff, 0xffffffff⟩ : AleEntry)
          36 1 :=
  ⟨C3_frame ⟨0xffffffff, 0xffffffff, 0xffffffff⟩ 28 8 0 27 (by decide)
      (by decide) (by decide) (Or.inl (by decide)),
    C3_frame ⟨0xffffffff, 0xffffffff, 0xffffffff⟩ 28 8 0 36 (by decide)
      (by decide) (by decide) (Or.inr (by decide))⟩

/-! ## Claim C9 -/

/-- The 32-bit aging tick computation of cpsw_ale_hw_aging_timer_start. -/
def hw_aging_ticks (ale : cpsw_ale) : Nat :=
  ale.bus_freq / 1000000 % 2 ^ 32 * ale.ale_ageout % 2 ^ 32

theorem ldiff_BITMASK_ne_zero (t k : Nat) :
    Nat.ldiff t (BITMASK k) ≠ 0 ↔ 2 ^ k ≤ t := by
  rw [ldiff_low_mask]
  have hp := Nat.two_pow_pos k
  constructor
  · intro h
    rcases Nat.lt_or_ge t (2 ^ k) with hlt | hge
    · rw [Nat.div_eq_of_lt hlt, Nat.mul_zero] at h
      exact absurd rfl h
    · exact hge
  · intro h hz
    have hdiv : 1 ≤ t / 2 ^ k := (Nat.one_le_div_iff hp).mpr h
    have hm : 2 ^ k * 1 ≤ 2 ^ k * (t / 2 ^ k) := Nat.mul_le_mul_left _ hdiv
    omega

/-- C9: aging start is a no-op when the ageout interval is zero (and so is
aging stop); on hardware auto-age variants it computes the 32-bit tick
count bus_freq / 1e6 * ageout, clamps it to the 24-bit timer field maximum
when it overflows that field, and performs exactly one write of it to the
aging-timer register; aging stop writes 0 there. -/
theorem C9_aging_start_stop (ale : cpsw_ale) :
    (ale.ale_ageout = 0 →
      cpsw_ale_aging_start ale = ale ∧ cpsw_ale_aging_stop ale = ale) ∧
    (ale.ale_ageout ≠ 0 → ale.features &&& CPSW_ALE_F_HW_AUTOAGING ≠ 0 →
      cpsw_ale_aging_start ale =
        writel ale
          (if 2 ^ 24 ≤ hw_aging_ticks ale then ALE_AGING_TIMER_MASK
            else hw_aging_ticks ale) ALE_AGING_TIMER ∧
      cpsw_ale_aging_stop ale = writel ale 0 ALE_AGING_TIMER) := by
  constructor
  · intro h0
    constructor
    · unfold cpsw_ale_aging_start
      rw [if_pos h0]
    · unfold cpsw_ale_aging_stop
      rw [if_pos h0]
  · intro hne hhw
    constructor
    · simp only [cpsw_ale_aging_start, cpsw_ale_hw_aging_timer_start, hne,
        hhw, if_false, if_true, cAndNot_eq_ldiff]
      have hmask : ALE_AGING_TIMER_MASK = BITMASK 24 := rfl
      simp only [hw_aging_ticks, hmask]
      by_cases hc : 2 ^ 24 ≤ ale.bus_freq / 1000000 % 2 ^ 32 * ale.ale_ageout
          % 2 ^ 32
      · rw [if_pos ((ldiff_BITMASK_ne_zero _ 24).mpr hc), if_pos hc,
          if_pos hhw]
      · rw [if_neg (fun hd => hc ((ldiff_BITMASK_ne_zero _ 24).mp hd)),
          if_neg hc, if_pos hhw]
    · simp only [cpsw_ale_aging_stop, cpsw_ale_hw_aging_timer_stop, hne, hhw,
        if_false, if_true]
      rw [if_pos hhw]

/-- A concrete hardware auto-aging handle used by witnesses. -/
def aleHW : cpsw_ale where
  ale_entries := 2
  ale_ports := 3
  nu_switch_ale := false
  bus_freq := 250000000
  ale_ageout := 1000
  features := CPSW_ALE_F_HW_AUTOAGING
  port_mask_bits := 3
  port_num_bits := 2
  vlan_field_bits := 3
  vlan_entry_tbl := vlan_entry_cpsw
  tbl := fun _ => ⟨0, 0, 0⟩
  regs := fun _ => 0
  p0_untag_vid_mask := fun _ => false
  timer_armed := false

/-- C9 witness: 250 MHz bus and 1000 s ageout program 250000 ticks; the
stop path zeroes the register. -/
theorem C9_aging_start_stop_witness :
    cpsw_ale_aging_start aleHW =
      writel aleHW
        (if 2 ^ 24 ≤ hw_aging_ticks aleHW then ALE_AGING_TIMER_MASK
          else hw_aging_ticks aleHW) ALE_AGING_TIMER ∧
    cpsw_ale_aging_stop aleHW = writel aleHW 0 ALE_AGING_TIMER :=
  (C9_aging_start_stop aleHW).2 (by decide) (by decide)

/-! ## Control layer helper lemmas -/

theorem readl_writel_same (ale : cpsw_ale) (v off : Nat) :
    readl (writel ale v off) off = v := by
  simp [readl, writel]

theorem readl_writel_other (ale : cpsw_ale) (v off off2 : Nat)
    (h : off2 ≠ off) : readl (writel ale v off) off2 = readl ale off2 := by
  simp [readl, writel, h]

theorem control_set_global_eq (ale : cpsw_ale) (port : Int)
    (control value : Nat)
    (hglob : (ale_controls control).port_offset = 0 ∧
      (ale_controls control).port_shift = 0) :
    cpsw_ale_control_set ale port control value =
      cpsw_ale_control_set ale 0 control value := by
  simp only [cpsw_ale_control_set, if_pos hglob]

theorem control_get_global_eq (ale : cpsw_ale) (port : Int) (control : Nat)
    (hglob : (ale_controls control).port_offset = 0 ∧
      (ale_controls control).port_shift = 0) :
    cpsw_ale_control_get ale port control =
      cpsw_ale_control_get ale 0 control := by
  simp only [cpsw_ale_control_get, if_pos hglob]

theorem control_set_bad_port (ale : cpsw_ale) (port : Int)
    (control value : Nat) (hctl : control < ALE_NUM_CONTROLS)
    (hper : ¬ ((ale_controls control).port_offset = 0 ∧
      (ale_controls control).port_shift = 0))
    (hbad : port < 0 ∨ (ale.ale_ports : Int) ≤ port) :
    cpsw_ale_control_set ale port control value = (-EINVAL, ale) := by
  simp only [cpsw_ale_control_set, if_neg hper]
  rw [if_neg (by omega : ¬ ALE_NUM_CONTROLS ≤ control), if_pos hbad]

theorem control_get_bad_port (ale : cpsw_ale) (port : Int) (control : Nat)
    (hctl : control < ALE_NUM_CONTROLS)
    (hper : ¬ ((ale_controls control).port_offset = 0 ∧
      (ale_controls control).port_shift = 0))
    (hbad : port < 0 ∨ (ale.ale_ports : Int) ≤ port) :
    cpsw_ale_control_get ale port control = -EINVAL := by
  simp only [cpsw_ale_control_get, if_neg hper]
  rw [if_neg (by omega : ¬ ALE_NUM_CONTROLS ≤ control), if_pos hbad]

theorem control_set_bad_value (ale : cpsw_ale) (port : Int)
    (control value : Nat) (hctl : control < ALE_NUM_CONTROLS)
    (hport : 0 ≤ port) (hport2 : port < (ale.ale_ports : Int))
    (hval : cAndNot value (BITMASK (ale_controls control).bits) ≠ 0) :
    cpsw_ale_control_set ale port control value = (-EINVAL, ale) := by
  simp only [cpsw_ale_control_set]
  rw [if_neg (by omega : ¬ ALE_NUM_CONTROLS ≤ control)]
  by_cases hglob : (ale_controls control).port_offset = 0 ∧
      (ale_controls control).port_shift = 0
  · rw [if_pos hglob,
      if_neg (by omega : ¬ ((0 : Int) < 0 ∨ (ale.ale_ports : Int) ≤ 0)),
      if_pos hval]
  · rw [if_neg hglob, if_neg (by omega : ¬ (port < 0 ∨ (ale.ale_ports : Int) ≤ port)),
      if_pos hval]

theorem control_set_ok (ale : cpsw_ale) (port : Int) (control value : Nat)
    (hctl : control < ALE_NUM_CONTROLS)
    (hport : 0 ≤ port) (hport2 : port < (ale.ale_ports : Int))
    (hval : cAndNot value (BITMASK (ale_controls control).bits) = 0) :
    cpsw_ale_control_set ale port control value =
      (0, writel ale
        (cAndNot
            (readl ale ((ale_controls control).offset +
              port.toNat * (ale_controls control).port_offset))
            ((BITMASK (ale_controls control).bits <<<
              ((ale_controls control).shift +
                port.toNat * (ale_controls control).port_shift)) % 2 ^ 32) |||
          (value <<< ((ale_controls control).shift +
            port.toNat * (ale_controls control).port_shift)) % 2 ^ 32)
        ((ale_controls control).offset +
          port.toNat * (ale_controls control).port_offset)) := by
  simp only [cpsw_ale_control_set]
  rw [if_neg (by omega : ¬ ALE_NUM_CONTROLS ≤ control)]
  by_cases hglob : (ale_controls control).port_offset = 0 ∧
      (ale_controls control).port_shift = 0
  · rw [if_pos hglob,
      if_neg (by omega : ¬ ((0 : Int) < 0 ∨ (ale.ale_ports : Int) ≤ 0)),
      if_neg (by simpa using hval)]
    simp only [hglob.1, hglob.2, Nat.mul_zero, Int.toNat_zero]
  · rw [if_neg hglob,
      if_neg (by omega : ¬ (port < 0 ∨ (ale.ale_ports : Int) ≤ port)),
      if_neg (by simpa using hval)]

theorem control_get_ok (ale : cpsw_ale) (port : Int) (control : Nat)
    (hctl : control < ALE_NUM_CONTROLS)
    (hport : 0 ≤ port) (hport2 : port < (ale.ale_ports : Int)) :
    cpsw_ale_control_get ale port control =
      Int.ofNat (readl ale ((ale_controls control).offset +
          port.toNat * (ale_controls control).port_offset) >>>
        ((ale_controls control).shift +
          port.toNat * (ale_controls control).port_shift) &&&
        BITMASK (ale_controls control).bits) := by
  simp only [cpsw_ale_control_get]
  rw [if_neg (by omega : ¬ ALE_NUM_CONTROLS ≤ control)]
  by_cases hglob : (ale_controls control).port_offset = 0 ∧
      (ale_controls control).port_shift = 0
  · rw [if_pos hglob,
      if_neg (by omega : ¬ ((0 : Int) < 0 ∨ (ale.ale_ports : Int) ≤ 0))]
    simp only [hglob.1, hglob.2, Nat.mul_zero, Int.toNat_zero]
  · rw [if_neg hglob,
      if_neg (by omega : ¬ (port < 0 ∨ (ale.ale_ports : Int) ≤ port))]

/-! ## Claim C8 -/

/-- C8: control_set ignores the port for a control with zero per-port
offset and shift strides (any port passes the port check); for a per-port
control a port outside 0..port_count-1 fails with EINVAL; a value with a
bit above the declared width fails with EINVAL; otherwise a masked
read-modify-write happens at offset base + port * stride.  control_get
performs the same resolution and port validation without the width check. -/
theorem C8_control_set_get (ale : cpsw_ale) (port : Int) (control value : Nat)
    (hctl : control < ALE_NUM_CONTROLS) :
    ((ale_controls control).port_offset = 0 ∧
        (ale_controls control).port_shift = 0 →
      cpsw_ale_control_set ale port control value =
        cpsw_ale_control_set ale 0 control value ∧
      cpsw_ale_control_get ale port control =
        cpsw_ale_control_get ale 0 control ∧
      (0 < ale.ale_ports →
        cAndNot value (BITMASK (ale_controls control).bits) = 0 →
        (cpsw_ale_control_set ale port control value).1 = 0)) ∧
    (¬ ((ale_controls control).port_offset = 0 ∧
        (ale_controls control).port_shift = 0) →
      (port < 0 ∨ (ale.ale_ports : Int) ≤ port) →
      cpsw_ale_control_set ale port control value = (-EINVAL, ale) ∧
      cpsw_ale_control_get ale port control = -EINVAL) ∧
    (0 ≤ port → port < (ale.ale_ports : Int) →
      cAndNot value (BITMASK (ale_controls control).bits) ≠ 0 →
      cpsw_ale_control_set ale port control value = (-EINVAL, ale)) ∧
    (0 ≤ port → port < (ale.ale_ports : Int) →
      cAndNot value (BITMASK (ale_controls control).bits) = 0 →
      cpsw_ale_control_set ale port control value =
        (0, writel ale
          (cAndNot
              (readl ale ((ale_controls control).offset +
                port.toNat * (ale_controls control).port_offset))
              ((BITMASK (ale_controls control).bits <<<
                ((ale_controls control).shift +
                  port.toNat * (ale_controls control).port_shift)) % 2 ^ 32) |||
            (value <<< ((ale_controls control).shift +
              port.toNat * (ale_controls control).port_shift)) % 2 ^ 32)
          ((ale_controls control).offset +
            port.toNat * (ale_controls control).port_offset)) ∧
      cpsw_ale_control_get ale port control =
        Int.ofNat (readl ale ((ale_controls control).offset +
            port.toNat * (ale_controls control).port_offset) >>>
          ((ale_controls control).shift +
            port.toNat * (ale_controls control).port_shift) &&&
          BITMASK (ale_controls control).bits)) := by
  refine ⟨fun hglob => ⟨?_, ?_, ?_⟩, fun hper hbad => ⟨?_, ?_⟩,
    fun h1 h2 h3 => ?_, fun h1 h2 h3 => ⟨?_, ?_⟩⟩
  · exact control_set_global_eq ale port control value hglob
  · exact control_get_global_eq ale port control hglob
  · intro hports hval
    rw [control_set_global_eq ale port control value hglob,
      control_set_ok ale 0 control value hctl (by omega) (by omega) hval]
  · exact control_set_bad_port ale port control value hctl hper hbad
  · exact control_get_bad_port ale port control hctl hper hbad
  · exact control_set_bad_value ale port control value hctl h1 h2 h3
  · exact control_set_ok ale port control value hctl h1 h2 h3
  · exact control_get_ok ale port control hctl h1 h2

/-- C8 witness: a per-port control rejects an out-of-range port and an
over-wide value, and a global control ignores the port argument. -/
theorem C8_control_set_get_witness :
    cpsw_ale_control_set aleHW 5 ALE_PORT_STATE 1 = (-EINVAL, aleHW) ∧
    cpsw_ale_control_set aleHW 1 ALE_PORT_STATE 7 = (-EINVAL, aleHW) ∧
    cpsw_ale_control_set aleHW 9 ALE_ENABLE 1 =
      cpsw_ale_control_set aleHW 0 ALE_ENABLE 1 :=
  ⟨((C8_control_set_get aleHW 5 ALE_PORT_STATE 1 (by decide)).2.1
      (by decide) (by decide)).1,
    (C8_control_set_get aleHW 1 ALE_PORT_STATE 7 (by decide)).2.2.1
      (by decide) (by decide) (by decide),
    ((C8_control_set_get aleHW 9 ALE_ENABLE 1 (by decide)).1 (by decide)).1⟩

/-! ## Claim C7 -/

/-- C7: for every valid port, a 1500 pps multicast rate limit request
succeeds and programs the multicast-limit control to 1 (the nonzero
remainder is only logged); any nonzero request below 1000 pps fails with
EINVAL; a zero request succeeds and programs 0. -/
theorem C7_rx_ratelimit_mc (ale : cpsw_ale) (port : Int)
    (hport : 0 ≤ port) (hports : port < (ale.ale_ports : Int)) :
    ((cpsw_ale_rx_ratelimit_mc ale port 1500).1 = 0 ∧
      cpsw_ale_control_get (cpsw_ale_rx_ratelimit_mc ale port 1500).2 port
        ALE_PORT_MCAST_LIMIT = 1) ∧
    (∀ pps : Nat, 0 < pps → pps < ALE_RATE_LIMIT_MIN_PPS →
      cpsw_ale_rx_ratelimit_mc ale port pps = (-EINVAL, ale)) ∧
    ((cpsw_ale_rx_ratelimit_mc ale port 0).1 = 0 ∧
      cpsw_ale_control_get (cpsw_ale_rx_ratelimit_mc ale port 0).2 port
        ALE_PORT_MCAST_LIMIT = 0) := by
  have hprog : ∀ v : Nat, v < 2 ^ 8 →
      cpsw_ale_control_get
        (cpsw_ale_control_set ale port ALE_PORT_MCAST_LIMIT v).2 port
        ALE_PORT_MCAST_LIMIT = Int.ofNat v := by
    intro v hv
    rw [control_set_ok ale port ALE_PORT_MCAST_LIMIT v (by decide) hport
      hports (by
        rw [cAndNot_eq_ldiff,
          show BITMASK (ale_controls ALE_PORT_MCAST_LIMIT).bits = BITMASK 8
            from rfl,
          ldiff_low_mask, Nat.div_eq_of_lt hv, Nat.mul_zero])]
    rw [control_get_ok _ port ALE_PORT_MCAST_LIMIT (by decide) hport
      (by exact hports)]
    rw [readl_writel_same]
    rw [cAndNot_eq_ldiff]
    have hsh : (ale_controls ALE_PORT_MCAST_LIMIT).shift +
        port.toNat * (ale_controls ALE_PORT_MCAST_LIMIT).port_shift = 16 := by
      simp [ale_controls, ALE_PORT_MCAST_LIMIT]
    have hbits : (ale_controls ALE_PORT_MCAST_LIMIT).bits = 8 := rfl
    rw [hsh, hbits, rmw_field_get _ v 16 8 hv (by omega)]
  refine ⟨⟨?_, ?_⟩, fun pps hp1 hp2 => ?_, ?_, ?_⟩
  · simp only [cpsw_ale_rx_ratelimit_mc]
    rw [if_neg (by decide)]
  · simp only [cpsw_ale_rx_ratelimit_mc]
    rw [if_neg (by decide)]
    have h1 : (1500 : Nat) / ALE_RATE_LIMIT_MIN_PPS = 1 := rfl
    rw [h1]
    exact hprog 1 (by omega)
  · simp only [cpsw_ale_rx_ratelimit_mc]
    rw [if_pos ⟨by omega, by
      rw [show ALE_RATE_LIMIT_MIN_PPS = 1000 from rfl] at hp2 ⊢
      omega⟩]
  · simp only [cpsw_ale_rx_ratelimit_mc]
    rw [if_neg (by decide)]
  · simp only [cpsw_ale_rx_ratelimit_mc]
    rw [if_neg (by decide)]
    have h1 : (0 : Nat) / ALE_RATE_LIMIT_MIN_PPS = 0 := rfl
    rw [h1]
    exact hprog 0 (by omega)

/-- C7 witness: on the concrete handle, port 1 at 1500 pps programs 1,
500 pps fails with EINVAL, 0 pps programs 0. -/
theorem C7_rx_ratelimit_mc_witness :
    cpsw_ale_control_get (cpsw_ale_rx_ratelimit_mc aleHW 1 1500).2 1
        ALE_PORT_MCAST_LIMIT = 1 ∧
    cpsw_ale_rx_ratelimit_mc aleHW 1 500 = (-EINVAL, aleHW) ∧
    cpsw_ale_control_get (cpsw_ale_rx_ratelimit_mc aleHW 1 0).2 1
        ALE_PORT_MCAST_LIMIT = 0 :=
  ⟨(C7_rx_ratelimit_mc aleHW 1 (by decide) (by decide)).1.2,
    (C7_rx_ratelimit_mc aleHW 1 (by decide) (by decide)).2.1 500 (by decide)
      (by decide),
    (C7_rx_ratelimit_mc aleHW 1 (by decide) (by decide)).2.2.2⟩

/-! ## Claim C10 -/

/-- C10: both packet-per-second rate limiters return success for every
rate that passes the minimum-granularity check, discarding the result of
the underlying per-port control write; with an out-of-range port the
control write fails inside, no register is written, and the call still
returns success with the state unchanged. -/
theorem C10_ratelimit_discards_control_error (ale : cpsw_ale) (port : Int)
    (pps : Nat) (hok : ¬ (pps ≠ 0 ∧ pps / ALE_RATE_LIMIT_MIN_PPS = 0)) :
    (cpsw_ale_rx_ratelimit_mc ale port pps).1 = 0 ∧
    (cpsw_ale_rx_ratelimit_bc ale port pps).1 = 0 ∧
    ((port < 0 ∨ (ale.ale_ports : Int) ≤ port) →
      cpsw_ale_rx_ratelimit_mc ale port pps = (0, ale) ∧
      cpsw_ale_rx_ratelimit_bc ale port pps = (0, ale)) := by
  refine ⟨?_, ?_, fun hbad => ⟨?_, ?_⟩⟩
  · simp only [cpsw_ale_rx_ratelimit_mc]
    rw [if_neg hok]
  · simp only [cpsw_ale_rx_ratelimit_bc]
    rw [if_neg hok]
  · simp only [cpsw_ale_rx_ratelimit_mc]
    rw [if_neg hok,
      control_set_bad_port ale port ALE_PORT_MCAST_LIMIT _ (by decide)
        (by decide) hbad]
  · simp only [cpsw_ale_rx_ratelimit_bc]
    rw [if_neg hok,
      control_set_bad_port ale port ALE_PORT_BCAST_LIMIT _ (by decide)
        (by decide) hbad]

/-- C10 witness: port 5 is out of range on a 3-port handle, yet a 1500 pps
request reports success and leaves the state untouched. -/
theorem C10_ratelimit_discards_control_error_witness :
    cpsw_ale_rx_ratelimit_mc aleHW 5 1500 = (0, aleHW) ∧
    cpsw_ale_rx_ratelimit_bc aleHW 5 1500 = (0, aleHW) :=
  (C10_ratelimit_discards_control_error aleHW 5 1500 (by decide)).2.2
    (Or.inr (by decide))

/-! ## State preservation and scan congruence -/

theorem set_vlan_untag_tbl (ale : cpsw_ale) (e : AleEntry) (vid : Nat)
    (m : Int) : ((cpsw_ale_set_vlan_untag ale e vid m).2).tbl = ale.tbl := by
  simp only [cpsw_ale_set_vlan_untag]
  split <;> rfl

theorem set_vlan_untag_entries (ale : cpsw_ale) (e : AleEntry) (vid : Nat)
    (m : Int) :
    ((cpsw_ale_set_vlan_untag ale e vid m).2).ale_entries = ale.ale_entries := by
  simp only [cpsw_ale_set_vlan_untag]
  split <;> rfl

theorem set_vlan_mcast_tbl (ale : cpsw_ale) (e : AleEntry) (r u : Int) :
    (cpsw_ale_set_vlan_mcast ale e r u).tbl = ale.tbl := rfl

theorem set_vlan_mcast_entries (ale : cpsw_ale) (e : AleEntry) (r u : Int) :
    (cpsw_ale_set_vlan_mcast ale e r u).ale_entries = ale.ale_entries := rfl

theorem match_free_def (a : cpsw_ale) :
    cpsw_ale_match_free a =
      scanFirst (fun idx =>
        decide (cpsw_ale_get_entry_type (a.tbl idx) = ALE_TYPE_FREE))
      a.ale_entries := rfl

theorem find_ageable_def (a : cpsw_ale) :
    cpsw_ale_find_ageable a =
      scanFirst (fun idx =>
        (decide (cpsw_ale_get_entry_type (a.tbl idx) = ALE_TYPE_ADDR) ||
          decide (cpsw_ale_get_entry_type (a.tbl idx) = ALE_TYPE_VLAN_ADDR)) &&
        decide (cpsw_ale_get_mcast (a.tbl idx) = 0) &&
        decide (cpsw_ale_get_ucast_type (a.tbl idx) ≠ ALE_UCAST_PERSISTANT) &&
        decide (cpsw_ale_get_ucast_type (a.tbl idx) ≠ ALE_UCAST_OUI))
      a.ale_entries := rfl

theorem write_tbl_shape (a base : cpsw_ale) (i : Nat) (E : AleEntry)
    (ht : a.tbl = base.tbl) :
    ∃ e', (cpsw_ale_write a i E).tbl
      = fun j => if j = i then e' else base.tbl j := by
  refine ⟨E, ?_⟩
  funext j
  by_cases h : j = i <;> simp [cpsw_ale_write, h, ht]

/-! ## Claim C1 -/

/-- C1: every add operation (unicast, multicast, VLAN) picks its target
index as: matching entry, else first free entry, else first ageable entry
(non-persistent, non-OUI, non-multicast unicast), and returns ENOMEM
exactly when all three searches miss.  Consequently a table full of
persistent or OUI unicast entries rejects any add of a new key, while the
presence of a touched unicast entry lets an add of a new distinct key
succeed at the first ageable index. -/
theorem C1_alloc_order (ale : cpsw_ale) (addr : List Nat)
    (port flags vid port_mask mcast_state untag reg unreg : Nat) :
    ((cpsw_ale_add_ucast ale addr port flags vid).1 = -ENOMEM ↔
      (cpsw_ale_match_addr ale addr
          (if flags &&& ALE_VLAN ≠ 0 then vid else 0) = none ∧
        cpsw_ale_match_free ale = none ∧
        cpsw_ale_find_ageable ale = none)) ∧
    ((cpsw_ale_add_mcast ale addr port_mask flags vid mcast_state).1
        = -ENOMEM ↔
      (cpsw_ale_match_addr ale addr
          (if flags &&& ALE_VLAN ≠ 0 then vid else 0) = none ∧
        cpsw_ale_match_free ale = none ∧
        cpsw_ale_find_ageable ale = none)) ∧
    ((cpsw_ale_add_vlan ale vid port_mask untag reg unreg).1 = -ENOMEM ↔
      (cpsw_ale_match_vlan ale vid = none ∧
        cpsw_ale_match_free ale = none ∧
        cpsw_ale_find_ageable ale = none)) ∧
    (∀ i, cpsw_ale_match_addr ale addr
        (if flags &&& ALE_VLAN ≠ 0 then vid else 0) = some i →
      (cpsw_ale_add_ucast ale addr port flags vid).1 = 0 ∧
      ∃ e', (cpsw_ale_add_ucast ale addr port flags vid).2.tbl
        = fun j => if j = i then e' else ale.tbl j) ∧
    (cpsw_ale_match_addr ale addr
        (if flags &&& ALE_VLAN ≠ 0 then vid else 0) = none →
      ∀ i, cpsw_ale_match_free ale = some i →
      (cpsw_ale_add_ucast ale addr port flags vid).1 = 0 ∧
      ∃ e', (cpsw_ale_add_ucast ale addr port flags vid).2.tbl
        = fun j => if j = i then e' else ale.tbl j) ∧
    (cpsw_ale_match_addr ale addr
        (if flags &&& ALE_VLAN ≠ 0 then vid else 0) = none →
      cpsw_ale_match_free ale = none →
      ∀ i, cpsw_ale_find_ageable ale = some i →
      (cpsw_ale_add_ucast ale addr port flags vid).1 = 0 ∧
      ∃ e', (cpsw_ale_add_ucast ale addr port flags vid).2.tbl
        = fun j => if j = i then e' else ale.tbl j) ∧
    (∀ i, cpsw_ale_match_addr ale addr
        (if flags &&& ALE_VLAN ≠ 0 then vid else 0) = some i →
      (cpsw_ale_add_mcast ale addr port_mask flags vid mcast_state).1 = 0 ∧
      ∃ e', (cpsw_ale_add_mcast ale addr port_mask flags vid
          mcast_state).2.tbl
        = fun j => if j = i then e' else ale.tbl j) ∧
    (cpsw_ale_match_addr ale addr
        (if flags &&& ALE_VLAN ≠ 0 then vid else 0) = none →
      ∀ i, cpsw_ale_match_free ale = some i →
      (cpsw_ale_add_mcast ale addr port_mask flags vid mcast_state).1 = 0 ∧
      ∃ e', (cpsw_ale_add_mcast ale addr port_mask flags vid
          mcast_state).2.tbl
        = fun j => if j = i then e' else ale.tbl j) ∧
    (cpsw_ale_match_addr ale addr
        (if flags &&& ALE_VLAN ≠ 0 then vid else 0) = none →
      cpsw_ale_match_free ale = none →
      ∀ i, cpsw_ale_find_ageable ale = some i →
      (cpsw_ale_add_mcast ale addr port_mask flags vid mcast_state).1 = 0 ∧
      ∃ e', (cpsw_ale_add_mcast ale addr port_mask flags vid
          mcast_state).2.tbl
        = fun j => if j = i then e' else ale.tbl j) ∧
    (∀ i, cpsw_ale_match_vlan ale vid = some i →
      (cpsw_ale_add_vlan ale vid port_mask untag reg unreg).1 = 0 ∧
      ∃ e', (cpsw_ale_add_vlan ale vid port_mask untag reg unreg).2.tbl
        = fun j => if j = i then e' else ale.tbl j) ∧
    (cpsw_ale_match_vlan ale vid = none →
      ∀ i, cpsw_ale_match_free ale = some i →
      (cpsw_ale_add_vlan ale vid port_mask untag reg unreg).1 = 0 ∧
      ∃ e', (cpsw_ale_add_vlan ale vid port_mask untag reg unreg).2.tbl
        = fun j => if j = i then e' else ale.tbl j) ∧
    (cpsw_ale_match_vlan ale vid = none →
      cpsw_ale_match_free ale = none →
      ∀ i, cpsw_ale_find_ageable ale = some i →
      (cpsw_ale_add_vlan ale vid port_mask untag reg unreg).1 = 0 ∧
      ∃ e', (cpsw_ale_add_vlan ale vid port_mask untag reg unreg).2.tbl
        = fun j => if j = i then e' else ale.tbl j) ∧
    ((∀ j, j < ale.ale_entries →
        (cpsw_ale_get_entry_type (ale.tbl j) = ALE_TYPE_ADDR ∨
          cpsw_ale_get_entry_type (ale.tbl j) = ALE_TYPE_VLAN_ADDR)) →
      (∀ j, j < ale.ale_entries →
        (cpsw_ale_get_ucast_type (ale.tbl j) = ALE_UCAST_PERSISTANT ∨
          cpsw_ale_get_ucast_type (ale.tbl j) = ALE_UCAST_OUI)) →
      (∀ j, j < ale.ale_entries →
        ¬ (cpsw_ale_get_vlan_id (ale.tbl j)
            = (if flags &&& ALE_VLAN ≠ 0 then vid else 0) ∧
          cpsw_ale_get_addr (ale.tbl j) = addr)) →
      (cpsw_ale_add_ucast ale addr port flags vid).1 = -ENOMEM ∧
      (cpsw_ale_add_mcast ale addr port_mask flags vid mcast_state).1
        = -ENOMEM ∧
      (cpsw_ale_add_vlan ale vid port_mask untag reg unreg).1 = -ENOMEM) ∧
    ((∀ j, j < ale.ale_entries →
        (cpsw_ale_get_entry_type (ale.tbl j) = ALE_TYPE_ADDR ∨
          cpsw_ale_get_entry_type (ale.tbl j) = ALE_TYPE_VLAN_ADDR)) →
      (∀ j, j < ale.ale_entries →
        ¬ (cpsw_ale_get_vlan_id (ale.tbl j)
            = (if flags &&& ALE_VLAN ≠ 0 then vid else 0) ∧
          cpsw_ale_get_addr (ale.tbl j) = addr)) →
      (∃ j, j < ale.ale_entries ∧
        cpsw_ale_get_ucast_type (ale.tbl j) = ALE_UCAST_TOUCHED ∧
        cpsw_ale_get_mcast (ale.tbl j) = 0) →
      ∃ a, cpsw_ale_find_ageable ale = some a ∧
        (cpsw_ale_add_ucast ale addr port flags vid).1 = 0 ∧
        ∃ e', (cpsw_ale_add_ucast ale addr port flags vid).2.tbl
          = fun j => if j = a then e' else ale.tbl j) := by
  have huc_iff : (cpsw_ale_add_ucast ale addr port flags vid).1 = -ENOMEM ↔
      (cpsw_ale_match_addr ale addr
          (if flags &&& ALE_VLAN ≠ 0 then vid else 0) = none ∧
        cpsw_ale_match_free ale = none ∧
        cpsw_ale_find_ageable ale = none) := by
    simp only [cpsw_ale_add_ucast]
    cases h1 : cpsw_ale_match_addr ale addr
        (if flags &&& ALE_VLAN ≠ 0 then vid else 0) with
    | some i => simp [ENOMEM]
    | none =>
      cases h2 : cpsw_ale_match_free ale with
      | some i => simp [ENOMEM]
      | none =>
        cases h3 : cpsw_ale_find_ageable ale with
        | some i => simp [ENOMEM]
        | none => simp
  have hmc_iff : (cpsw_ale_add_mcast ale addr port_mask flags vid
      mcast_state).1 = -ENOMEM ↔
      (cpsw_ale_match_addr ale addr
          (if flags &&& ALE_VLAN ≠ 0 then vid else 0) = none ∧
        cpsw_ale_match_free ale = none ∧
        cpsw_ale_find_ageable ale = none) := by
    simp only [cpsw_ale_add_mcast]
    cases h1 : cpsw_ale_match_addr ale addr
        (if flags &&& ALE_VLAN ≠ 0 then vid else 0) with
    | some i => simp [ENOMEM]
    | none =>
      cases h2 : cpsw_ale_match_free ale with
      | some i => simp [ENOMEM]
      | none =>
        cases h3 : cpsw_ale_find_ageable ale with
        | some i => simp [ENOMEM]
        | none => simp
  have hvl_iff : (cpsw_ale_add_vlan ale vid port_mask untag reg unreg).1
      = -ENOMEM ↔
      (cpsw_ale_match_vlan ale vid = none ∧
        cpsw_ale_match_free ale = none ∧
        cpsw_ale_find_ageable ale = none) := by
    simp only [cpsw_ale_add_vlan, match_free_def, find_ageable_def,
      apply_ite (Prod.snd : AleEntry × cpsw_ale → cpsw_ale),
      apply_ite cpsw_ale.tbl, apply_ite cpsw_ale.ale_entries,
      set_vlan_untag_tbl, set_vlan_untag_entries, set_vlan_mcast_tbl,
      set_vlan_mcast_entries, ite_self]
    simp only [← match_free_def, ← find_ageable_def]
    cases h1 : cpsw_ale_match_vlan ale vid with
    | some i => simp [ENOMEM]
    | none =>
      cases h2 : cpsw_ale_match_free ale with
      | some i => simp [ENOMEM]
      | none =>
        cases h3 : cpsw_ale_find_ageable ale with
        | some i => simp [ENOMEM]
        | none => simp
  refine ⟨huc_iff, hmc_iff, hvl_iff, ?_, ?_, ?_, ?_, ?_, ?_, ?_, ?_, ?_,
    ?_, ?_⟩
  · intro i h1
    simp only [cpsw_ale_add_ucast]
    rw [h1]
    exact ⟨rfl, write_tbl_shape _ _ _ _ rfl⟩
  · intro h1 i h2
    simp only [cpsw_ale_add_ucast]
    rw [h1, h2]
    exact ⟨rfl, write_tbl_shape _ _ _ _ rfl⟩
  · intro h1 h2 i h3
    simp only [cpsw_ale_add_ucast]
    rw [h1, h2, h3]
    exact ⟨rfl, write_tbl_shape _ _ _ _ rfl⟩
  · intro i h1
    simp only [cpsw_ale_add_mcast]
    rw [h1]
    exact ⟨rfl, write_tbl_shape _ _ _ _ rfl⟩
  · intro h1 i h2
    simp only [cpsw_ale_add_mcast]
    rw [h1, h2]
    exact ⟨rfl, write_tbl_shape _ _ _ _ rfl⟩
  · intro h1 h2 i h3
    simp only [cpsw_ale_add_mcast]
    rw [h1, h2, h3]
    exact ⟨rfl, write_tbl_shape _ _ _ _ rfl⟩
  · intro i h1
    simp only [cpsw_ale_add_vlan]
    rw [h1]
    exact ⟨rfl, write_tbl_shape _ _ _ _ (by
      simp only [apply_ite (Prod.snd : AleEntry × cpsw_ale → cpsw_ale),
        apply_ite cpsw_ale.tbl, set_vlan_untag_tbl, set_vlan_mcast_tbl,
        ite_self])⟩
  · intro h1 i h2
    simp only [cpsw_ale_add_vlan, match_free_def, find_ageable_def,
      apply_ite (Prod.snd : AleEntry × cpsw_ale → cpsw_ale),
      apply_ite cpsw_ale.tbl, apply_ite cpsw_ale.ale_entries,
      set_vlan_untag_tbl, set_vlan_untag_entries, set_vlan_mcast_tbl,
      set_vlan_mcast_entries, ite_self]
    simp only [← match_free_def, ← find_ageable_def]
    rw [h1, h2]
    exact ⟨rfl, write_tbl_shape _ _ _ _ (by
      simp only [apply_ite (Prod.snd : AleEntry × cpsw_ale → cpsw_ale),
        apply_ite cpsw_ale.tbl, set_vlan_untag_tbl, set_vlan_mcast_tbl,
        ite_self])⟩
  · intro h1 h2 i h3
    simp only [cpsw_ale_add_vlan, match_free_def, find_ageable_def,
      apply_ite (Prod.snd : AleEntry × cpsw_ale → cpsw_ale),
      apply_ite cpsw_ale.tbl, apply_ite cpsw_ale.ale_entries,
      set_vlan_untag_tbl, set_vlan_untag_entries, set_vlan_mcast_tbl,
      set_vlan_mcast_entries, ite_self]
    simp only [← match_free_def, ← find_ageable_def]
    rw [h1, h2, h3]
    exact ⟨rfl, write_tbl_shape _ _ _ _ (by
      simp only [apply_ite (Prod.snd : AleEntry × cpsw_ale → cpsw_ale),
        apply_ite cpsw_ale.tbl, set_vlan_untag_tbl, set_vlan_mcast_tbl,
        ite_self])⟩
  · intro hA1 hA3 hA4
    have hmatch : cpsw_ale_match_addr ale addr
        (if flags &&& ALE_VLAN ≠ 0 then vid else 0) = none := by
      rw [cpsw_ale_match_addr, scanFirst_eq_none_iff]
      intro j hj
      simp only [cpsw_ale_read, Bool.and_eq_false_iff, Bool.or_eq_false_iff,
        decide_eq_false_iff_not]
      by_cases hv : cpsw_ale_get_vlan_id (ale.tbl j)
          = (if flags &&& ALE_VLAN ≠ 0 then vid else 0)
      · exact Or.inr fun hh => hA4 j hj ⟨hv, hh⟩
      · exact Or.inl (Or.inr hv)
    have hfree : cpsw_ale_match_free ale = none := by
      rw [cpsw_ale_match_free, scanFirst_eq_none_iff]
      intro j hj
      simp only [cpsw_ale_read, decide_eq_false_iff_not]
      rcases hA1 j hj with h | h <;> rw [h] <;> decide
    have hage : cpsw_ale_find_ageable ale = none := by
      rw [cpsw_ale_find_ageable, scanFirst_eq_none_iff]
      intro j hj
      simp only [cpsw_ale_read, Bool.and_eq_false_iff, Bool.or_eq_false_iff,
        decide_eq_false_iff_not]
      rcases hA3 j hj with h | h
      · exact Or.inl (Or.inr (not_ne_iff.mpr h))
      · exact Or.inr (not_ne_iff.mpr h)
    have hvlan : cpsw_ale_match_vlan ale vid = none := by
      rw [cpsw_ale_match_vlan, scanFirst_eq_none_iff]
      intro j hj
      simp only [cpsw_ale_read, Bool.and_eq_false_iff,
        decide_eq_false_iff_not]
      rcases hA1 j hj with h | h <;> exact Or.inl (by rw [h]; decide)
    exact ⟨huc_iff.mpr ⟨hmatch, hfree, hage⟩,
      hmc_iff.mpr ⟨hmatch, hfree, hage⟩,
      hvl_iff.mpr ⟨hvlan, hfree, hage⟩⟩
  · intro hB1 hB4 hB5
    have hmatch : cpsw_ale_match_addr ale addr
        (if flags &&& ALE_VLAN ≠ 0 then vid else 0) = none := by
      rw [cpsw_ale_match_addr, scanFirst_eq_none_iff]
      intro j hj
      simp only [cpsw_ale_read, Bool.and_eq_false_iff, Bool.or_eq_false_iff,
        decide_eq_false_iff_not]
      by_cases hv : cpsw_ale_get_vlan_id (ale.tbl j)
          = (if flags &&& ALE_VLAN ≠ 0 then vid else 0)
      · exact Or.inr fun hh => hB4 j hj ⟨hv, hh⟩
      · exact Or.inl (Or.inr hv)
    have hfree : cpsw_ale_match_free ale = none := by
      rw [cpsw_ale_match_free, scanFirst_eq_none_iff]
      intro j hj
      simp only [cpsw_ale_read, decide_eq_false_iff_not]
      rcases hB1 j hj with h | h <;> rw [h] <;> decide
    obtain ⟨j, hj, hjt, hjm⟩ := hB5
    obtain ⟨a, ha⟩ : ∃ k, cpsw_ale_find_ageable ale = some k := by
      rw [cpsw_ale_find_ageable]
      refine scanFirst_isSome _ _ ⟨j, hj, ?_⟩
      simp only [cpsw_ale_read, Bool.and_eq_true, Bool.or_eq_true,
        decide_eq_true_eq]
      refine ⟨⟨⟨?_, hjm⟩, by rw [hjt]; decide⟩, by rw [hjt]; decide⟩
      rcases hB1 j hj with h | h
      · exact Or.inl h
      · exact Or.inr h
    refine ⟨a, ha, ?_⟩
    simp only [cpsw_ale_add_ucast]
    rw [hmatch, hfree, show cpsw_ale_find_ageable ale = some a from ha]
    exact ⟨rfl, _, rfl⟩

/-- Handle for the C1 witness: a 2-entry table fully occupied by persistent
unicast entries (entry type ADDR at bits 60..61, ucast type PERSISTANT,
vlan id 0, address 00:00:00:00:00:00). -/
def aleC1 : cpsw_ale where
  ale_entries := 2
  ale_ports := 3
  nu_switch_ale := false
  bus_freq := 250000000
  ale_ageout := 1000
  features := 0
  port_mask_bits := 3
  port_num_bits := 2
  vlan_field_bits := 3
  vlan_entry_tbl := vlan_entry_cpsw
  tbl := fun _ => ⟨0, 268435456, 0⟩
  regs := fun _ => 0
  p0_untag_vid_mask := fun _ => false
  timer_armed := false

/-- C1 witness: on a table full of persistent unicast entries, adding a new
unicast, multicast or VLAN key fails with -ENOMEM. -/
theorem C1_alloc_order_witness :
    (cpsw_ale_add_ucast aleC1 [0, 0, 0, 0, 0, 1] 1 0 0).1 = -ENOMEM ∧
    (cpsw_ale_add_mcast aleC1 [0, 0, 0, 0, 0, 1] 3 0 0 0).1 = -ENOMEM ∧
    (cpsw_ale_add_vlan aleC1 0 3 0 0 0).1 = -ENOMEM :=
  (C1_alloc_order aleC1 [0, 0, 0, 0, 0, 1] 1 0 0 3 0 0
    0 0).2.2.2.2.2.2.2.2.2.2.2.2.1
    (by decide) (by decide) (by decide)

/-! ## C4: multicast merge on an existing key -/

/-- C4: adding a multicast address that already has an entry for the same
(MAC, VLAN) key merges port masks instead of allocating a new entry.  On a
handle with 3 port-mask bits whose table holds no entry for key
(02:03:04:05:06:07, vid 0) and whose first free slot is i, add_mcast with
mask 0b001 then add_mcast with mask 0b010 both succeed, the key matches
exactly at index i, the stored port mask is 0b011 (the OR of the stored and
incoming masks), and every other table entry is untouched, so no second
entry for the key exists. -/
theorem C4_mcast_merge (ale : cpsw_ale) (i : Nat)
    (h3 : ale.port_mask_bits = 3)
    (hnone : cpsw_ale_match_addr ale [2, 3, 4, 5, 6, 7] 0 = none)
    (hfree : cpsw_ale_match_free ale = some i) :
    (cpsw_ale_add_mcast ale [2, 3, 4, 5, 6, 7] 1 0 0 3).1 = 0 ∧
    (cpsw_ale_add_mcast
      (cpsw_ale_add_mcast ale [2, 3, 4, 5, 6, 7] 1 0 0 3).2
      [2, 3, 4, 5, 6, 7] 2 0 0 3).1 = 0 ∧
    cpsw_ale_match_addr
      (cpsw_ale_add_mcast
        (cpsw_ale_add_mcast ale [2, 3, 4, 5, 6, 7] 1 0 0 3).2
        [2, 3, 4, 5, 6, 7] 2 0 0 3).2 [2, 3, 4, 5, 6, 7] 0 = some i ∧
    cpsw_ale_get_port_mask
      ((cpsw_ale_add_mcast
        (cpsw_ale_add_mcast ale [2, 3, 4, 5, 6, 7] 1 0 0 3).2
        [2, 3, 4, 5, 6, 7] 2 0 0 3).2.tbl i) 3 = 3 ∧
    (∀ j, j ≠ i →
      (cpsw_ale_add_mcast
        (cpsw_ale_add_mcast ale [2, 3, 4, 5, 6, 7] 1 0 0 3).2
        [2, 3, 4, 5, 6, 7] 2 0 0 3).2.tbl j = ale.tbl j) ∧
    ∀ j, j < ale.ale_entries → j ≠ i →
      ¬ ((cpsw_ale_get_entry_type
            ((cpsw_ale_add_mcast
              (cpsw_ale_add_mcast ale [2, 3, 4, 5, 6, 7] 1 0 0 3).2
              [2, 3, 4, 5, 6, 7] 2 0 0 3).2.tbl j) = ALE_TYPE_ADDR ∨
          cpsw_ale_get_entry_type
            ((cpsw_ale_add_mcast
              (cpsw_ale_add_mcast ale [2, 3, 4, 5, 6, 7] 1 0 0 3).2
              [2, 3, 4, 5, 6, 7] 2 0 0 3).2.tbl j) = ALE_TYPE_VLAN_ADDR) ∧
        cpsw_ale_get_vlan_id
          ((cpsw_ale_add_mcast
            (cpsw_ale_add_mcast ale [2, 3, 4, 5, 6, 7] 1 0 0 3).2
            [2, 3, 4, 5, 6, 7] 2 0 0 3).2.tbl j) = 0 ∧
        cpsw_ale_get_addr
          ((cpsw_ale_add_mcast
            (cpsw_ale_add_mcast ale [2, 3, 4, 5, 6, 7] 1 0 0 3).2
            [2, 3, 4, 5, 6, 7] 2 0 0 3).2.tbl j) = [2, 3, 4, 5, 6, 7]) := by
  have hnonep := (scanFirst_eq_none_iff _ _).mp hnone
  obtain ⟨hi, -, -⟩ := (scanFirst_eq_some_iff _ _ _).mp hfree
  have h1 : cpsw_ale_add_mcast ale [2, 3, 4, 5, 6, 7] 1 0 0 3
      = (0, cpsw_ale_write ale i ⟨4, 3489661443, 67438087⟩) := by
    simp only [cpsw_ale_add_mcast, ite_self, hnone, hfree, h3]
    rfl
  have hmatch1 : cpsw_ale_match_addr
      (cpsw_ale_write ale i ⟨4, 3489661443, 67438087⟩) [2, 3, 4, 5, 6, 7] 0
      = some i := by
    rw [cpsw_ale_match_addr, scanFirst_eq_some_iff]
    refine ⟨hi, ?_, ?_⟩
    · simp only [cpsw_ale_read, cpsw_ale_write, eq_self_iff_true, if_true]
      decide
    · intro j hj
      have hji : ¬ (j = i) := by omega
      simp only [cpsw_ale_read, cpsw_ale_write, if_neg hji]
      exact hnonep j (by omega)
  have h2 : cpsw_ale_add_mcast
      (cpsw_ale_write ale i ⟨4, 3489661443, 67438087⟩) [2, 3, 4, 5, 6, 7]
      2 0 0 3
      = (0, cpsw_ale_write (cpsw_ale_write ale i ⟨4, 3489661443, 67438087⟩) i
          ⟨12, 3489661443, 67438087⟩) := by
    have hb : (cpsw_ale_write ale i
        ⟨4, 3489661443, 67438087⟩).port_mask_bits = 3 := h3
    simp only [cpsw_ale_add_mcast, ite_self, hmatch1, hb]
    simp only [cpsw_ale_read, cpsw_ale_write, eq_self_iff_true, if_true]
    rfl
  have hfr : ∀ j, j ≠ i →
      (cpsw_ale_add_mcast
        (cpsw_ale_add_mcast ale [2, 3, 4, 5, 6, 7] 1 0 0 3).2
        [2, 3, 4, 5, 6, 7] 2 0 0 3).2.tbl j = ale.tbl j := by
    intro j hj
    simp only [h1, h2]
    simp only [cpsw_ale_write]
    rw [if_neg hj, if_neg hj]
  refine ⟨by simp only [h1], by simp only [h1, h2], ?_, ?_, hfr, ?_⟩
  · simp only [h1, h2]
    rw [cpsw_ale_match_addr, scanFirst_eq_some_iff]
    refine ⟨hi, ?_, ?_⟩
    · simp only [cpsw_ale_read, cpsw_ale_write, eq_self_iff_true, if_true]
      decide
    · intro j hj
      have hji : ¬ (j = i) := by omega
      simp only [cpsw_ale_read, cpsw_ale_write, if_neg hji]
      exact hnonep j (by omega)
  · simp only [h1, h2]
    simp only [cpsw_ale_write, eq_self_iff_true, if_true]
    decide
  · intro j hjn hji
    rw [hfr j hji]
    rintro ⟨ht, hv, ha⟩
    have hb := hnonep j hjn
    simp only [cpsw_ale_read, Bool.and_eq_false_iff, Bool.or_eq_false_iff,
      decide_eq_false_iff_not] at hb
    rcases hb with (⟨hA, hB⟩ | h) | h
    · rcases ht with ht | ht
      · exact hA ht
      · exact hB ht
    · exact h hv
    · exact h ha

/-- Handle for the C4 witness: a 2-entry table that is entirely free. -/
def aleC4 : cpsw_ale where
  ale_entries := 2
  ale_ports := 3
  nu_switch_ale := false
  bus_freq := 250000000
  ale_ageout := 1000
  features := 0
  port_mask_bits := 3
  port_num_bits := 2
  vlan_field_bits := 3
  vlan_entry_tbl := vlan_entry_cpsw
  tbl := fun _ => ⟨0, 0, 0⟩
  regs := fun _ => 0
  p0_untag_vid_mask := fun _ => false
  timer_armed := false

/-- C4 witness: on an empty 2-entry table the two adds merge into the single
entry at index 0 with port mask 0b011. -/
theorem C4_mcast_merge_witness :
    cpsw_ale_match_addr
      (cpsw_ale_add_mcast
        (cpsw_ale_add_mcast aleC4 [2, 3, 4, 5, 6, 7] 1 0 0 3).2
        [2, 3, 4, 5, 6, 7] 2 0 0 3).2 [2, 3, 4, 5, 6, 7] 0 = some 0 ∧
    cpsw_ale_get_port_mask
      ((cpsw_ale_add_mcast
        (cpsw_ale_add_mcast aleC4 [2, 3, 4, 5, 6, 7] 1 0 0 3).2
        [2, 3, 4, 5, 6, 7] 2 0 0 3).2.tbl 0) 3 = 3 :=
  ⟨(C4_mcast_merge aleC4 0 rfl (by decide) (by decide)).2.2.1,
   (C4_mcast_merge aleC4 0 rfl (by decide) (by decide)).2.2.2.1⟩

/-! ## C5: VLAN delete -/

/-- Field resolution of the cpsw VLAN-entry descriptor table: every
descriptor is allowed, 3 bits wide, at the start bit listed in
vlan_entry_cpsw.  Resolving them up front keeps the field offsets literal
for the evaluations below. -/
theorem entry_get_fld_cpsw_0 (ale : cpsw_ale) (e : AleEntry) :
    cpsw_ale_entry_get_fld ale e vlan_entry_cpsw ALE_ENT_VID_MEMBER_LIST
      = Int.ofNat (cpsw_ale_get_field e 0 3) := rfl

theorem entry_get_fld_cpsw_1 (ale : cpsw_ale) (e : AleEntry) :
    cpsw_ale_entry_get_fld ale e vlan_entry_cpsw ALE_ENT_VID_UNREG_MCAST_MSK
      = Int.ofNat (cpsw_ale_get_field e 8 3) := rfl

theorem entry_get_fld_cpsw_2 (ale : cpsw_ale) (e : AleEntry) :
    cpsw_ale_entry_get_fld ale e vlan_entry_cpsw ALE_ENT_VID_REG_MCAST_MSK
      = Int.ofNat (cpsw_ale_get_field e 16 3) := rfl

theorem entry_get_fld_cpsw_3 (ale : cpsw_ale) (e : AleEntry) :
    cpsw_ale_entry_get_fld ale e vlan_entry_cpsw
      ALE_ENT_VID_FORCE_UNTAGGED_MSK
      = Int.ofNat (cpsw_ale_get_field e 24 3) := rfl

theorem entry_set_fld_cpsw_0 (ale : cpsw_ale) (e : AleEntry) (v : Nat) :
    cpsw_ale_entry_set_fld ale e vlan_entry_cpsw ALE_ENT_VID_MEMBER_LIST v
      = cpsw_ale_set_field e 0 3 v := rfl

theorem entry_set_fld_cpsw_1 (ale : cpsw_ale) (e : AleEntry) (v : Nat) :
    cpsw_ale_entry_set_fld ale e vlan_entry_cpsw ALE_ENT_VID_UNREG_MCAST_MSK v
      = cpsw_ale_set_field e 8 3 v := rfl

theorem entry_set_fld_cpsw_2 (ale : cpsw_ale) (e : AleEntry) (v : Nat) :
    cpsw_ale_entry_set_fld ale e vlan_entry_cpsw ALE_ENT_VID_REG_MCAST_MSK v
      = cpsw_ale_set_field e 16 3 v := rfl

theorem entry_set_fld_cpsw_3 (ale : cpsw_ale) (e : AleEntry) (v : Nat) :
    cpsw_ale_entry_set_fld ale e vlan_entry_cpsw
      ALE_ENT_VID_FORCE_UNTAGGED_MSK v
      = cpsw_ale_set_field e 24 3 v := rfl

/-- Handle for the C5 counterexample: a 2-entry table whose entries are the
VLAN 5 entry with member mask 0b011 = {host port 0, port 1}. -/
def aleC5x : cpsw_ale where
  ale_entries := 2
  ale_ports := 3
  nu_switch_ale := false
  bus_freq := 250000000
  ale_ageout := 1000
  features := 0
  port_mask_bits := 3
  port_num_bits := 2
  vlan_field_bits := 3
  vlan_entry_tbl := vlan_entry_cpsw
  tbl := fun _ => ⟨0, 537198592, 3⟩
  regs := fun _ => 0
  p0_untag_vid_mask := fun _ => false
  timer_armed := false

/-- C5 counterexample: VLAN 5 has member mask {P1, P2} with P1 the host
port (bit 0) and P2 = port 1.  del_vlan(5, {P1}) succeeds but leaves the
member mask unchanged at 0b011 instead of {P2} = 0b010: the code strips
the host port from the requested mask before the partial delete, so the
host port is never removed this way. -/
theorem C5_del_vlan_counterexample :
    (cpsw_ale_del_vlan aleC5x 5 1).1 = 0 ∧
    cpsw_ale_get_entry_type ((cpsw_ale_del_vlan aleC5x 5 1).2.tbl 0)
      = ALE_TYPE_VLAN ∧
    cpsw_ale_vlan_get_fld aleC5x ((cpsw_ale_del_vlan aleC5x 5 1).2.tbl 0)
      ALE_ENT_VID_MEMBER_LIST = 3 ∧
    ¬ cpsw_ale_vlan_get_fld aleC5x ((cpsw_ale_del_vlan aleC5x 5 1).2.tbl 0)
      ALE_ENT_VID_MEMBER_LIST = 2 := by
  decide

/-- Handle for C5: index 0 holds the VLAN 5 entry ⟨0, 537198592, 6⟩ (entry
type VLAN, vlan id 5, member mask 0b110 = {port 1, port 2}), index 1 is
free, and bit 5 of the host-port untag bitmap is set. -/
def aleC5 : cpsw_ale where
  ale_entries := 2
  ale_ports := 3
  nu_switch_ale := false
  bus_freq := 250000000
  ale_ageout := 1000
  features := 0
  port_mask_bits := 3
  port_num_bits := 2
  vlan_field_bits := 3
  vlan_entry_tbl := vlan_entry_cpsw
  tbl := fun j => if j = 0 then ⟨0, 537198592, 6⟩ else ⟨0, 0, 0⟩
  regs := fun _ => 0
  p0_untag_vid_mask := fun b => if b = 5 then true else false
  timer_armed := false

/-- C5 (amended to non-host ports P1, P2; the counterexample shows the
claim fails when P1 is the host port): on the cpsw handle whose table holds
VLAN 5 with member mask {port 1, port 2}, del_vlan(5, {port 1}) keeps
the entry alive as a VLAN entry with member mask {port 2} and leaves the
other index untouched; del_vlan(5, {port 1, port 2}) and the legacy
force delete del_vlan(5, 0) free the entry and clear bit 5 of the
host-port untag bitmap (which starts set); del_vlan on VLAN id 7, which
has no entry, returns -ENOENT and leaves the state unchanged. -/
theorem C5_del_vlan :
    ((cpsw_ale_del_vlan aleC5 5 2).1 = 0 ∧
      cpsw_ale_get_entry_type ((cpsw_ale_del_vlan aleC5 5 2).2.tbl 0)
        = ALE_TYPE_VLAN ∧
      cpsw_ale_vlan_get_fld aleC5 ((cpsw_ale_del_vlan aleC5 5 2).2.tbl 0)
        ALE_ENT_VID_MEMBER_LIST = 4 ∧
      (cpsw_ale_del_vlan aleC5 5 2).2.tbl 1 = aleC5.tbl 1 ∧
      aleC5.p0_untag_vid_mask 5 = true ∧
      (cpsw_ale_del_vlan aleC5 5 6).1 = 0 ∧
      cpsw_ale_get_entry_type ((cpsw_ale_del_vlan aleC5 5 6).2.tbl 0)
        = ALE_TYPE_FREE ∧
      (cpsw_ale_del_vlan aleC5 5 6).2.p0_untag_vid_mask 5 = false ∧
      (cpsw_ale_del_vlan aleC5 5 0).1 = 0 ∧
      cpsw_ale_get_entry_type ((cpsw_ale_del_vlan aleC5 5 0).2.tbl 0)
        = ALE_TYPE_FREE ∧
      (cpsw_ale_del_vlan aleC5 5 0).2.p0_untag_vid_mask 5 = false ∧
      (cpsw_ale_del_vlan aleC5 7 2).1 = -ENOENT) ∧
    (cpsw_ale_del_vlan aleC5 7 2).2 = aleC5 :=
  ⟨by decide, rfl⟩


/-! ## C6: multicast delete -/

/-- C6: on a handle with 3 port-mask bits whose table matches the key
(02:03:04:05:06:07, vid 0) at index i with the stored multicast entry
⟨28, 3489661443, 67438087⟩ (port mask 0b111): a del_mcast whose key misses
returns -ENOENT with the state unchanged; del_mcast with mask 0b010
rewrites the entry at i with the AND-NOT-reduced port mask 0b101, keeping
it an address entry; del_mcast with mask 0b111 empties the mask and
converts the entry to Free; del_mcast with the empty mask 0 skips the
remaining-members computation and converts the entry to Free regardless of
its stored members. -/
theorem C6_del_mcast (ale : cpsw_ale) (i : Nat)
    (h3 : ale.port_mask_bits = 3)
    (hmatch : cpsw_ale_match_addr ale [2, 3, 4, 5, 6, 7] 0 = some i)
    (hentry : ale.tbl i = ⟨28, 3489661443, 67438087⟩) :
    (∀ addr pm flags vid, cpsw_ale_match_addr ale addr
        (if flags &&& ALE_VLAN ≠ 0 then vid else 0) = none →
      cpsw_ale_del_mcast ale addr pm flags vid = (-ENOENT, ale)) ∧
    cpsw_ale_get_port_mask (ale.tbl i) 3 = 7 ∧
    cpsw_ale_del_mcast ale [2, 3, 4, 5, 6, 7] 2 0 0
      = (0, cpsw_ale_write ale i ⟨20, 3489661443, 67438087⟩) ∧
    cpsw_ale_get_port_mask
      ((cpsw_ale_del_mcast ale [2, 3, 4, 5, 6, 7] 2 0 0).2.tbl i) 3
      = cAndNot 7 2 ∧
    cpsw_ale_get_entry_type
      ((cpsw_ale_del_mcast ale [2, 3, 4, 5, 6, 7] 2 0 0).2.tbl i)
      = ALE_TYPE_ADDR ∧
    cpsw_ale_get_entry_type
      ((cpsw_ale_del_mcast ale [2, 3, 4, 5, 6, 7] 7 0 0).2.tbl i)
      = ALE_TYPE_FREE ∧
    cpsw_ale_get_entry_type
      ((cpsw_ale_del_mcast ale [2, 3, 4, 5, 6, 7] 0 0 0).2.tbl i)
      = ALE_TYPE_FREE := by
  have hb : cpsw_ale_del_mcast ale [2, 3, 4, 5, 6, 7] 2 0 0
      = (0, cpsw_ale_write ale i ⟨20, 3489661443, 67438087⟩) := by
    simp only [cpsw_ale_del_mcast, ite_self, hmatch, cpsw_ale_read, hentry,
      h3]
    rfl
  have hc : cpsw_ale_del_mcast ale [2, 3, 4, 5, 6, 7] 7 0 0
      = (0, cpsw_ale_write ale i ⟨28, 3221225987, 67438087⟩) := by
    simp only [cpsw_ale_del_mcast, ite_self, hmatch, cpsw_ale_read, hentry,
      h3]
    rfl
  have hd : cpsw_ale_del_mcast ale [2, 3, 4, 5, 6, 7] 0 0 0
      = (0, cpsw_ale_write ale i ⟨28, 3221225987, 67438087⟩) := by
    simp only [cpsw_ale_del_mcast, ite_self, hmatch, cpsw_ale_read, hentry,
      h3]
    rfl
  refine ⟨fun addr pm flags vid h => by simp only [cpsw_ale_del_mcast, h],
    by rw [hentry]; rfl, hb, ?_, ?_, ?_, ?_⟩
  · simp only [hb]
    simp only [cpsw_ale_write, eq_self_iff_true, if_true]
    rfl
  · simp only [hb]
    simp only [cpsw_ale_write, eq_self_iff_true, if_true]
    rfl
  · simp only [hc]
    simp only [cpsw_ale_write, eq_self_iff_true, if_true]
    rfl
  · simp only [hd]
    simp only [cpsw_ale_write, eq_self_iff_true, if_true]
    rfl

/-- Handle for the C6 witness: the matched multicast entry at index 0,
index 1 free. -/
def aleC6 : cpsw_ale where
  ale_entries := 2
  ale_ports := 3
  nu_switch_ale := false
  bus_freq := 250000000
  ale_ageout := 1000
  features := 0
  port_mask_bits := 3
  port_num_bits := 2
  vlan_field_bits := 3
  vlan_entry_tbl := vlan_entry_cpsw
  tbl := fun j => if j = 0 then ⟨28, 3489661443, 67438087⟩ else ⟨0, 0, 0⟩
  regs := fun _ => 0
  p0_untag_vid_mask := fun _ => false
  timer_armed := false

/-- C6 witness: deleting mask 0b010 leaves the reduced mask 0b101 at index
0; deleting with mask 0 frees the entry. -/
theorem C6_del_mcast_witness :
    cpsw_ale_get_port_mask
      ((cpsw_ale_del_mcast aleC6 [2, 3, 4, 5, 6, 7] 2 0 0).2.tbl 0) 3
      = cAndNot 7 2 ∧
    cpsw_ale_get_entry_type
      ((cpsw_ale_del_mcast aleC6 [2, 3, 4, 5, 6, 7] 0 0 0).2.tbl 0)
      = ALE_TYPE_FREE :=
  ⟨(C6_del_mcast aleC6 0 rfl (by decide) rfl).2.2.2.1,
   (C6_del_mcast aleC6 0 rfl (by decide) rfl).2.2.2.2.2.2⟩

end CpswAle
